import Mathlib

/-!
Verification of the hotel room-booking backend core: the distributed lock
(`src/utils/redisLock.ts`), the availability cache (`src/config/redis.ts`),
the booking-conflict validator and the booking orchestrator
(`src/services/roomService.ts`), and the request schema
(`src/validators/booking.ts`).

Modelling conventions:
- Mongo `ObjectId` values are modelled as `Nat` (booking ids, user ids) or
  `List Char` (room ids, which are interpolated into cache keys).
- JavaScript `Date` values are modelled as `Int` milliseconds since epoch;
  comparing `Date` objects compares these numbers.
- A Mongo collection is a `List` of documents; `findOne`/`find` filters are
  translated to `List.find?`/`List.filter` over the same predicates.
- The Redis key space is a list of `(key, value)` pairs with `List Char`
  keys; `SCAN MATCH` glob patterns are interpreted by an executable glob
  matcher.
-/

namespace HotelBooking

/-! ## Data model (`src/models/Booking.ts`, `src/models/Room.ts`) -/

/-- Booking lifecycle status, from the `BookingStatus` enum. -/
inductive BookingStatus
  | pending
  | confirmed
  | cancelled
  | completed
deriving DecidableEq, Repr

/-- Payment status, from the `PaymentStatus` enum. -/
inductive PaymentStatus
  | pending
  | paid
  | failed
  | refunded
deriving DecidableEq, Repr

/-- The fields of `IRoom` that the booking core reads: `isActive`,
`dimensions.maxOccupancy` and `pricing.basePrice`. -/
structure Room where
  isActive : Bool
  maxOccupancy : Int
  basePrice : Int
deriving DecidableEq, Repr

/-- The fields of `IBooking` that the booking core reads and writes.
`createdAt`/`updatedAt` timestamps and `specialRequests` are not modelled:
no claim depends on them. -/
structure IBooking where
  id : Nat
  userId : Nat
  roomId : List Char
  checkInDate : Int
  checkOutDate : Int
  numberOfGuests : Int
  totalAmount : Int
  status : BookingStatus
  paymentStatus : PaymentStatus
deriving DecidableEq, Repr

/-- The payload of `ICreateBooking` (room, half-open interval, guest
count). -/
structure ICreateBooking where
  roomId : List Char
  checkInDate : Int
  checkOutDate : Int
  numberOfGuests : Int
deriving DecidableEq, Repr

/-- Result type `IBookingValidation` of `BookingService.validateBooking`. -/
structure IBookingValidation where
  isValid : Bool
  errors : List String
deriving DecidableEq, Repr

/-- Lookup of `roomsCollection.findOne (filter on _id)` in an association
list of rooms. -/
def lookupRoom (rooms : List (List Char × Room)) (roomId : List Char) :
    Option Room :=
  (rooms.find? (fun e => e.1 == roomId)).map (·.2)

/-! ## Conflict validator -/

/-- A booking blocks availability when its status is in
`[BookingStatus.PENDING, BookingStatus.CONFIRMED]` (the `$in` clause of the
conflict queries). -/
def isActiveStatus (s : BookingStatus) : Bool :=
  s == BookingStatus.pending || s == BookingStatus.confirmed

/-- The conflicting-bookings Mongo query shared by
`BookingService.validateBooking` and `RoomService.checkRoomAvailability`:
same room, active status, `checkInDate < candidate.checkOutDate` and
`checkOutDate > candidate.checkInDate`, optionally excluding one booking id
(the `excludeBookingId` filter of `checkRoomAvailability`). -/
def findConflicts (bookings : List IBooking) (roomId : List Char)
    (checkInDate checkOutDate : Int) (excludeBookingId : Option Nat) :
    List IBooking :=
  bookings.filter (fun b =>
    b.roomId == roomId &&
    isActiveStatus b.status &&
    decide (b.checkInDate < checkOutDate) &&
    decide (b.checkOutDate > checkInDate) &&
    (match excludeBookingId with
     | none => true
     | some e => b.id != e))

namespace BookingService

/-- Shallow embedding of `BookingService.validateBooking`. `now` stands for
the `new Date()` calls, `rooms` for `roomsCollection`, `bookings` for
`bookingsCollection`. The error strings are pushed in source order; the
capacity message drops the interpolated number. -/
def validateBooking (now : Int) (rooms : List (List Char × Room))
    (bookings : List IBooking) (bookingData : ICreateBooking) :
    IBookingValidation :=
  let e1 : List String :=
    if bookingData.checkInDate ≥ bookingData.checkOutDate then
      ["Check-in date must be before check-out date"] else []
  let e2 : List String :=
    if bookingData.checkInDate < now then
      ["Check-in date cannot be in the past"] else []
  let e3 : List String :=
    if bookingData.numberOfGuests ≤ 0 then
      ["Number of guests must be greater than 0"] else []
  match lookupRoom rooms bookingData.roomId with
  | none =>
      { isValid := false, errors := e1 ++ e2 ++ e3 ++ ["Room not found"] }
  | some room =>
      let e4 : List String :=
        if !room.isActive then ["Room is not available for booking"] else []
      let e5 : List String :=
        if bookingData.numberOfGuests > room.maxOccupancy then
          ["Number of guests exceeds room capacity"] else []
      let conflicts := findConflicts bookings bookingData.roomId
        bookingData.checkInDate bookingData.checkOutDate none
      let e6 : List String :=
        if conflicts.length > 0 then
          ["Room is not available for the selected dates"] else []
      let errors := e1 ++ e2 ++ e3 ++ e4 ++ e5 ++ e6
      { isValid := errors.isEmpty, errors := errors }

end BookingService

/-! ## Request schema (`src/validators/booking.ts`, `createBookingSchema`) -/

/-- The fields of a create-booking HTTP request that `createBookingSchema`
constrains and that the claims mention. `numberOfGuests` is a rational,
because JSON numbers need not be integers and the schema checks `.int()`
explicitly. The `roomId` format check and the `specialRequests` length
check are orthogonal to every claim and are not modelled. -/
structure CreateBookingRequest where
  checkInDate : Int
  checkOutDate : Int
  numberOfGuests : Rat
deriving DecidableEq, Repr

/-- JavaScript `Math.ceil(a / day)` for the millisecond difference used by
the 30-day refinement: the source takes `Math.abs` first, so this is a
ceiling division of the absolute difference. -/
def diffDaysCeil (checkInDate checkOutDate : Int) : Nat :=
  ((checkOutDate - checkInDate).natAbs + 86400000 - 1) / 86400000

/-- Shallow embedding of `createBookingSchema`: the issue messages produced
for the modelled fields, in schema order (field checks, then the two
object-level refinements). `now` stands for the `new Date()` in
`futureDateSchema`. -/
def createBookingSchemaIssues (now : Int) (r : CreateBookingRequest) :
    List String :=
  let futureIssue : List String :=
    if r.checkInDate > now then [] else ["Date must be in the future"]
  let intIssue : List String :=
    if r.numberOfGuests.den = 1 then []
    else ["Number of guests must be an integer"]
  let minIssue : List String :=
    if r.numberOfGuests ≥ 1 then [] else ["At least 1 guest is required"]
  let maxIssue : List String :=
    if r.numberOfGuests ≤ 10 then [] else ["Maximum 10 guests allowed"]
  let orderIssue : List String :=
    if r.checkOutDate > r.checkInDate then []
    else ["Check-out date must be after check-in date"]
  let lengthIssue : List String :=
    if diffDaysCeil r.checkInDate r.checkOutDate ≤ 30 then []
    else ["Booking cannot exceed 30 days"]
  futureIssue ++ intIssue ++ minIssue ++ maxIssue ++ orderIssue ++
    lengthIssue

/-- A request passes `createBookingSchema` iff it produces no issues; the
route `POST /bookings` runs this via `validateBody` before
`bookingController.createBooking`, so a failing request never reaches the
service. -/
def createBookingSchemaAccepts (now : Int) (r : CreateBookingRequest) :
    Bool :=
  (createBookingSchemaIssues now r).isEmpty

/-! ## Booking status transitions (`BookingService.cancelBooking`,
`BookingService.confirmBooking`) -/

/-- Mongo `findOneAndUpdate(filter, update, returnDocument: "after")` over
a list collection: returns the updated first match (or `none`) and the
updated collection. -/
def findOneAndUpdate (p : IBooking → Bool) (f : IBooking → IBooking)
    (bookings : List IBooking) : Option IBooking × List IBooking :=
  match bookings.find? p with
  | none => (none, bookings)
  | some b =>
      (some (f b), bookings.map (fun x => if x.id == b.id then f b else x))

namespace BookingService

/-- Shallow embedding of `BookingService.cancelBooking`: the filter is
`(_id only)` with no status condition; the update sets
`status := CANCELLED`. The cache-invalidation side effect is modelled
separately (`BookingService.invalidateRoomCache`). The `reason` argument
of the source is ignored by the source itself. -/
def cancelBooking (bookings : List IBooking) (bookingId : Nat) :
    Except String (IBooking × List IBooking) :=
  match findOneAndUpdate (fun b => b.id == bookingId)
      (fun b => { b with status := BookingStatus.cancelled }) bookings with
  | (none, _) => .error "Booking not found"
  | (some b, bs) => .ok (b, bs)

/-- Shallow embedding of `BookingService.confirmBooking`: the filter is
`(_id, status: PENDING)`; the update sets `status := CONFIRMED`. -/
def confirmBooking (bookings : List IBooking) (bookingId : Nat) :
    Except String (IBooking × List IBooking) :=
  match findOneAndUpdate
      (fun b => b.id == bookingId && b.status == BookingStatus.pending)
      (fun b => { b with status := BookingStatus.confirmed }) bookings with
  | (none, _) => .error "Booking not found or cannot be confirmed"
  | (some b, bs) => .ok (b, bs)

end BookingService

/-! ## Availability cache (`src/config/redis.ts`) -/

/-- Executable semantics of the Redis `SCAN MATCH` glob patterns used by
the code (literal characters and `*`). -/
def globMatch : List Char → List Char → Bool
  | [], ks => ks.isEmpty
  | p :: ps, [] => if p = '*' then globMatch ps [] else false
  | p :: ps, k :: ks =>
      if p = '*' then globMatch ps (k :: ks) || globMatch (p :: ps) ks
      else p == k && globMatch ps ks
termination_by ps ks => (ps.length, ks.length)

/-- Cache keyspace: association list from key to the cached
`isAvailable` verdict. The JSON payload written by `setRoomAvailability`
also carries a write timestamp, which no reader ever consumes, so only the
boolean is modelled. -/
abbrev CacheStore := List (List Char × Bool)

/-- Redis `GET` (first binding wins, as in a key-value store). -/
def cacheGet (key : List Char) (s : CacheStore) : Option Bool :=
  (s.find? (fun e => e.1 == key)).map (·.2)

/-- Redis `SETEX` (overwrite; TTL bookkeeping is not modelled because no
claim depends on cache expiry). -/
def cacheSet (key : List Char) (v : Bool) (s : CacheStore) : CacheStore :=
  (key, v) :: s.filter (fun e => !(e.1 == key))

/-- Keys collected by `scanIterator (MATCH pattern)`. -/
def scanMatching (pattern : List Char) (s : CacheStore) :
    List (List Char) :=
  (s.filter (fun e => globMatch pattern e.1)).map (·.1)

/-- Redis `DEL keys`. -/
def delKeys (keys : List (List Char)) (s : CacheStore) : CacheStore :=
  s.filter (fun e => !(keys.contains e.1))

/-- The cache key `room:availability:$(roomId):$(dateRange)` built by
`setRoomAvailability` / `getRoomAvailability` / `CACHE_KEYS`. -/
def availabilityKey (roomId dateRange : List Char) : List Char :=
  ("room:availability:").data ++ roomId ++ ':' :: dateRange

namespace RedisConnection

/-- Shallow embedding of `RedisConnection.setRoomAvailability`. -/
def setRoomAvailability (roomId dateRange : List Char) (isAvailable : Bool)
    (s : CacheStore) : CacheStore :=
  cacheSet (availabilityKey roomId dateRange) isAvailable s

/-- Shallow embedding of `RedisConnection.getRoomAvailability`. -/
def getRoomAvailability (roomId dateRange : List Char) (s : CacheStore) :
    Option Bool :=
  cacheGet (availabilityKey roomId dateRange) s

/-- Shallow embedding of `RedisConnection.invalidateRoomCache` (the
version `createBooking` and `updateBooking` call through `redis`): scans
for `room:availability:$(roomId):*` and deletes the matches. -/
def invalidateRoomCache (roomId : List Char) (s : CacheStore) :
    CacheStore :=
  delKeys
    (scanMatching (("room:availability:").data ++ roomId ++ [':', '*']) s)
    s

end RedisConnection

namespace BookingService

/-- Shallow embedding of the private `BookingService.invalidateRoomCache`
(the version `cancelBooking` and `confirmBooking` call): scans for
`room:availability:*$(roomId)*` and for the broad search namespace
`room:availability:search:*`, then deletes all collected keys in one
batch. -/
def invalidateRoomCache (roomId : List Char) (s : CacheStore) :
    CacheStore :=
  delKeys
    (scanMatching (("room:availability:*").data ++ roomId ++ ['*']) s ++
      scanMatching (("room:availability:search:*").data) s)
    s

end BookingService

/-! ## Distributed lock (`src/utils/redisLock.ts`) -/

/-- State of the shared Redis store as the lock sees it: a connection
flag, a flag modelling the store raising on the next command (transport
failure), a clock in seconds and the live entries
`(key, value, expiresAt)`. -/
structure RStore where
  connected : Bool
  failing : Bool
  now : Nat
  entries : List (List Char × List Char × Nat)
deriving DecidableEq, Repr

/-- Redis `GET`: an entry whose expiry time has passed behaves as
absent. -/
def rget (s : RStore) (key : List Char) : Option (List Char) :=
  (s.entries.find? (fun e => e.1 == key && decide (s.now < e.2.2))).map
    (·.2.1)

/-- Redis `SET key value NX EX ttl`: set only if (unexpired) key is
absent; returns whether the set happened (the source compares the reply
with `"OK"`). -/
def rsetNxEx (s : RStore) (key value : List Char) (ttlSeconds : Nat) :
    Bool × RStore :=
  match rget s key with
  | some _ => (false, s)
  | none =>
      (true,
        { s with
          entries := (key, value, s.now + ttlSeconds) ::
            s.entries.filter (fun e => !(e.1 == key)) })

/-- Advancing the store clock (models TTL expiry between operations). -/
def advance (s : RStore) (seconds : Nat) : RStore :=
  { s with now := s.now + seconds }

namespace RedisLock

/-- Shallow embedding of `RedisLock.release`: if the connection is not
active, warn and return `false`; otherwise run the compare-and-delete Lua
script (`GET == value` then `DEL`), returning `true` iff the delete
happened; a store error thrown by the command is caught and turned into
`false`. -/
def release (s : RStore) (lockKey lockValue : List Char) :
    Bool × RStore :=
  if !s.connected then (false, s)
  else if s.failing then (false, s)
  else
    match rget s lockKey with
    | some v =>
        if v == lockValue then
          (true,
            { s with
              entries := s.entries.filter (fun e => !(e.1 == lockKey)) })
        else (false, s)
    | none => (false, s)

/-- Outcome of one `client.set(key, value, NX, EX)` attempt inside
`RedisLock.acquire`, as the loop observes it: the set succeeded, the key
was already held (reply not `"OK"`), or the command threw. -/
inductive AttemptOutcome
  | success
  | busy
  | failure
deriving DecidableEq, Repr

/-- The retry loop of `RedisLock.acquire`, indexed by the attempt number
and the remaining retries (`remaining = maxRetries - attempt`). Returns
the loop result (`Except` for a propagated store error) together with the
number of `sleep(retryDelay)` calls performed. On `busy`/`failure` with
retries left, the loop sleeps and tries again; `busy` on the final attempt
falls out of the loop and returns `false`; `failure` on the final attempt
rethrows. -/
def acquireGo (outcome : Nat → AttemptOutcome) :
    Nat → Nat → Except Unit Bool × Nat
  | attempt, remaining =>
    match outcome attempt, remaining with
    | .success, _ => (.ok true, 0)
    | .busy, 0 => (.ok false, 0)
    | .busy, r + 1 =>
        let rest := acquireGo outcome (attempt + 1) r
        (rest.1, rest.2 + 1)
    | .failure, 0 => (.error (), 0)
    | .failure, r + 1 =>
        let rest := acquireGo outcome (attempt + 1) r
        (rest.1, rest.2 + 1)

/-- Shallow embedding of `RedisLock.acquire`: the loop runs attempts
`0..maxRetries` (one initial attempt plus at most `maxRetries`
retries). -/
def acquire (outcome : Nat → AttemptOutcome) (maxRetries : Nat) :
    Except Unit Bool × Nat :=
  acquireGo outcome 0 maxRetries

/-- Error taxonomy of `RedisLock.withLock` as the caller observes it: the
acquisition path threw (store error), acquisition returned `false`
(`Failed to acquire lock`), or the protected function threw. -/
inductive WithLockError (E : Type)
  | lockStoreError
  | lockAcquisitionFailed
  | fnError (e : E)
deriving DecidableEq

/-- Events recorded by the `withLock` model, to talk about which code ran
on each path. -/
inductive LockEvent
  | fnStarted
  | releaseCalled
deriving DecidableEq, Repr

/-- Shallow embedding of `RedisLock.withLock` over an abstract state `σ`:
`acq` is the result of `this.acquire()` (the `acquire` model above),
`fn` the protected function (returning its result or thrown error plus the
state it leaves behind), and `doRelease` the effect of `this.release()` on
the state (its boolean result is discarded by the source). The `finally`
block runs `doRelease` after `fn` on both the return and the throw path;
nothing runs `fn` or `doRelease` when acquisition fails. -/
def withLock {σ E α : Type} (acq : Except Unit Bool)
    (fn : σ → Except E α × σ) (doRelease : σ → σ) (s : σ) :
    Except (WithLockError E) α × σ × List LockEvent :=
  match acq with
  | .error _ => (.error .lockStoreError, s, [])
  | .ok false => (.error .lockAcquisitionFailed, s, [])
  | .ok true =>
      let r := fn s
      let s2 := doRelease r.2
      match r.1 with
      | .ok v => (.ok v, s2, [.fnStarted, .releaseCalled])
      | .error e => (.error (.fnError e), s2, [.fnStarted, .releaseCalled])

end RedisLock

/-! ## Booking orchestrator (`BookingService.createBooking`) -/

/-- JavaScript `Math.ceil(a / b)` on exact integer inputs with `b > 0`
(the millisecond difference and the day length are well below 2^53, so
the float computation in the source is exact). -/
def jsCeilDiv (a b : Int) : Int := -((-a).ediv b)

/-- The world `createBooking` reads and writes: the two collections, the
availability cache and whether `redis.isConnectionActive()` holds (the
cache-invalidation step is skipped when it does not). -/
structure BookingWorld where
  rooms : List (List Char × Room)
  bookings : List IBooking
  cache : CacheStore
  redisUp : Bool

namespace BookingService

/-- The body `createBooking` runs inside `bookingLock.withLock`:
re-validate, look the room up for pricing, compute
`totalNights = Math.ceil((checkOut - checkIn) / (1000*60*60*24))` and
`totalAmount = room.pricing.basePrice * totalNights`, insert the booking
with `status: PENDING` and `paymentStatus: PENDING`, then (best-effort,
only when Redis is up) invalidate the room's availability cache via
`redis.invalidateRoomCache`, and return the inserted document. `newId`
models the `_id` Mongo assigns on insert. -/
def createBookingBody (now : Int) (userId : Nat)
    (bookingData : ICreateBooking) (newId : Nat) (w : BookingWorld) :
    Except String IBooking × BookingWorld :=
  let validation := validateBooking now w.rooms w.bookings bookingData
  if !validation.isValid then
    (.error (String.intercalate ", " validation.errors), w)
  else
    match lookupRoom w.rooms bookingData.roomId with
    | none => (.error "Room not found", w)
    | some room =>
        let totalNights : Int :=
          jsCeilDiv (bookingData.checkOutDate - bookingData.checkInDate)
            86400000
        let totalAmount := room.basePrice * totalNights
        let booking : IBooking :=
          { id := newId, userId := userId, roomId := bookingData.roomId,
            checkInDate := bookingData.checkInDate,
            checkOutDate := bookingData.checkOutDate,
            numberOfGuests := bookingData.numberOfGuests,
            totalAmount := totalAmount,
            status := BookingStatus.pending,
            paymentStatus := PaymentStatus.pending }
        let cache1 :=
          if w.redisUp then
            RedisConnection.invalidateRoomCache bookingData.roomId w.cache
          else w.cache
        (.ok booking,
          { w with bookings := w.bookings ++ [booking], cache := cache1 })

/-- Shallow embedding of `BookingService.createBooking`: the body above
wrapped in `withLock` on the lock derived from the room and the exact
interval. `acq` is the modelled outcome of the lock acquisition; releasing
the Redis lock does not touch the collections or the availability keys, so
`doRelease` is the identity on `BookingWorld`. -/
def createBooking (acq : Except Unit Bool) (now : Int) (userId : Nat)
    (bookingData : ICreateBooking) (newId : Nat) (w : BookingWorld) :
    Except (RedisLock.WithLockError String) IBooking × BookingWorld ×
      List RedisLock.LockEvent :=
  RedisLock.withLock acq (createBookingBody now userId bookingData newId)
    (fun w1 => w1) w

end BookingService

/-! ## Two concurrent `createBooking` calls (claim C1)

Two server processes run `createBooking` for the same room and the same
exact check-in/check-out interval, so `createBookingLock` derives the same
lock key for both and they contend on one Redis key. Each process is a
small state machine whose steps are the atomic store operations of the
source: one `SET NX` attempt (with `maxRetries = 5` from
`createBookingLock`), the conflict re-validation read, the insert, and the
compare-and-delete release. The lock TTL (60 s) is assumed not to elapse
while a critical section is running, which is the regime the design
targets. -/

/-- Program counter of one `createBooking` call. `releasing err` and
`doneConflict` carry the message of the validation error thrown inside the
critical section (the `finally` release runs before the error reaches the
caller). -/
inductive ProcState
  | acquiring (remaining : Nat)
  | validating
  | inserting
  | releasingOk
  | releasingErr (msg : String)
  | doneSuccess
  | doneConflict (msg : String)
  | doneLockFail
deriving DecidableEq, Repr

/-- Shared context of the two racing calls: the wall clock, the rooms
collection and the common booking payload; `bookingOf i` is the document
process `i` would insert (distinct `_id`s and users, same room and
interval). -/
structure RaceCtx where
  now : Int
  rooms : List (List Char × Room)
  data : ICreateBooking
  userOf : Bool → Nat
  idOf : Bool → Nat

/-- The document process `i` inserts, exactly as `createBookingBody`
builds it (the price factor defaults to 0 in the impossible room-missing
case, which insertion never reaches). -/
def RaceCtx.bookingOf (ctx : RaceCtx) (i : Bool) : IBooking :=
  { id := ctx.idOf i, userId := ctx.userOf i, roomId := ctx.data.roomId,
    checkInDate := ctx.data.checkInDate,
    checkOutDate := ctx.data.checkOutDate,
    numberOfGuests := ctx.data.numberOfGuests,
    totalAmount :=
      ((lookupRoom ctx.rooms ctx.data.roomId).map (·.basePrice)).getD 0 *
        jsCeilDiv (ctx.data.checkOutDate - ctx.data.checkInDate) 86400000,
    status := BookingStatus.pending,
    paymentStatus := PaymentStatus.pending }

/-- Shared state: who holds the lock key, the bookings collection, and the
two program counters. -/
structure SysConfig where
  lockHolder : Option Bool
  bookings : List IBooking
  proc : Bool → ProcState

/-- One atomic step of process `i`:
- `acquiring r`: one `SET NX` attempt; takes the free lock, otherwise
  consumes a retry or — with the budget exhausted — fails as
  `Failed to acquire lock`;
- `validating`: runs `validateBooking` against the current collection;
  a failure throws the joined error list (the conflict path);
- `inserting`: `insertOne` of the process's document;
- `releasing*`: the compare-and-delete of `release` (deletes the key only
  when this process holds it), then the call returns its result or
  rethrows the validation error.
Terminal states do not move. -/
def raceStep (ctx : RaceCtx) (i : Bool) (c : SysConfig) : SysConfig :=
  let upd : ProcState → Bool → ProcState := fun p j =>
    if j == i then p else c.proc j
  match c.proc i with
  | .acquiring r =>
      match c.lockHolder with
      | none => { c with lockHolder := some i, proc := upd .validating }
      | some _ =>
          match r with
          | 0 => { c with proc := upd .doneLockFail }
          | r0 + 1 => { c with proc := upd (.acquiring r0) }
  | .validating =>
      let v := BookingService.validateBooking ctx.now ctx.rooms c.bookings
        ctx.data
      if v.isValid then { c with proc := upd .inserting }
      else
        { c with
          proc := upd (.releasingErr (String.intercalate ", " v.errors)) }
  | .inserting =>
      { c with
        bookings := c.bookings ++ [ctx.bookingOf i]
        proc := upd .releasingOk }
  | .releasingOk =>
      { c with
        lockHolder := if c.lockHolder == some i then none else c.lockHolder
        proc := upd .doneSuccess }
  | .releasingErr msg =>
      { c with
        lockHolder := if c.lockHolder == some i then none else c.lockHolder
        proc := upd (.doneConflict msg) }
  | .doneSuccess => c
  | .doneConflict _ => c
  | .doneLockFail => c

/-- Initial configuration: lock free, empty collection, both calls about
to make their first `SET NX` attempt with the `maxRetries = 5` budget of
`createBookingLock`. -/
def raceInit : SysConfig :=
  { lockHolder := none, bookings := [],
    proc := fun _ => ProcState.acquiring 5 }

/-- Running a schedule (an arbitrary interleaving of the two processes). -/
def raceRun (ctx : RaceCtx) (sched : List Bool) : SysConfig :=
  sched.foldl (fun c i => raceStep ctx i c) raceInit

/-- A call has returned to its caller. -/
def isTerminal : ProcState → Bool
  | .doneSuccess => true
  | .doneConflict _ => true
  | .doneLockFail => true
  | _ => false

/-- The process is inside `withLock`'s critical section (acquired, not yet
released). -/
def isActiveAt : ProcState → Bool
  | .validating => true
  | .inserting => true
  | .releasingOk => true
  | .releasingErr _ => true
  | _ => false

/-- The process has already executed its `insertOne`. -/
def isInserted : ProcState → Bool
  | .releasingOk => true
  | .doneSuccess => true
  | _ => false

/-- Number of processes that have inserted their document. -/
def countInserted (c : SysConfig) : Nat :=
  (if isInserted (c.proc true) then 1 else 0) +
    (if isInserted (c.proc false) then 1 else 0)

/-- The message `validateBooking` produces for an interval conflict. -/
def conflictMsg : String := "Room is not available for the selected dates"

/-- Inductive invariant of the two-process race. -/
structure RaceInv (ctx : RaceCtx) (c : SysConfig) : Prop where
  lockActive : ∀ i, isActiveAt (c.proc i) = true ↔ c.lockHolder = some i
  countEq : c.bookings.length = countInserted c
  canonical : ∀ b ∈ c.bookings,
    b = ctx.bookingOf true ∨ b = ctx.bookingOf false
  insertedMem : ∀ i, isInserted (c.proc i) = true →
    ctx.bookingOf i ∈ c.bookings
  insertingEmpty : ∀ i, c.proc i = ProcState.inserting → c.bookings = []
  conflictMsgInv : ∀ i msg, (c.proc i = ProcState.releasingErr msg ∨
    c.proc i = ProcState.doneConflict msg) →
    msg = conflictMsg ∧ c.bookings ≠ []
  lockFailInv : ∀ i, c.proc i = ProcState.doneLockFail →
    c.lockHolder ≠ none ∨ c.bookings ≠ []
  lenLe : c.bookings.length ≤ 1

/-- Concrete race context for exercising the race theorem: one active
room, capacity 2, base price 100, the interval
[2024-03-01, 2024-03-04) UTC, two guests; the two calls insert documents
with distinct ids. -/
def raceCtxExample : RaceCtx where
  now := 0
  rooms :=
    [(['r'], { isActive := true, maxOccupancy := 2, basePrice := 100 })]
  data :=
    { roomId := ['r'], checkInDate := 1709251200000,
      checkOutDate := 1709510400000, numberOfGuests := 2 }
  userOf := fun _ => 0
  idOf := fun i => if i then 1 else 2

/-! ## Helper lemmas: glob matching and cache deletion -/

theorem globMatch_star (ks : List Char) : globMatch ['*'] ks = true := by
  induction ks with
  | nil => simp [globMatch]
  | cons k ks ih => simp [globMatch, ih]

theorem globMatch_append_left (pre ps ks : List Char) (h : '*' ∉ pre) :
    globMatch (pre ++ ps) (pre ++ ks) = globMatch ps ks := by
  induction pre with
  | nil => rfl
  | cons c pre ih =>
      have hc : ¬ c = '*' := fun hc => h (by simp [hc])
      have ih2 := ih (fun hm => h (List.mem_cons_of_mem _ hm))
      simp [globMatch, if_neg hc, ih2]

theorem globMatch_star_cons (ps a ks : List Char)
    (h : globMatch ps ks = true) :
    globMatch ('*' :: ps) (a ++ ks) = true := by
  induction a with
  | nil =>
      cases ks with
      | nil => simpa [globMatch] using h
      | cons k ks => simp [globMatch, h]
  | cons x a ih => simp [globMatch, ih]

theorem cacheGet_delKeys_eq_none (s : CacheStore) (keys : List (List Char))
    (key : List Char) (h : ∀ e ∈ s, e.1 = key → key ∈ keys) :
    cacheGet key (delKeys keys s) = none := by
  have hf : (delKeys keys s).find? (fun e => e.1 == key) = none := by
    rw [List.find?_eq_none]
    intro e he hpe
    have h1 : e.1 = key := by simpa using hpe
    have h2 : e ∈ s ∧ (!(keys.contains e.1)) = true :=
      List.mem_filter.mp he
    have h3 : key ∈ keys := h e h2.1 h1
    have h4 : keys.contains e.1 = true := by
      rw [h1]
      simpa using h3
    rw [h4] at h2
    simp at h2
  simp [cacheGet, hf]

theorem cacheGet_delKeys_of_scan (pat : List Char) (s : CacheStore)
    (key : List Char) (hm : globMatch pat key = true)
    (keys : List (List Char))
    (hsub : ∀ k ∈ scanMatching pat s, k ∈ keys) :
    cacheGet key (delKeys keys s) = none := by
  apply cacheGet_delKeys_eq_none
  intro e he h1
  apply hsub
  simp only [scanMatching, List.mem_map]
  refine ⟨e, List.mem_filter.mpr ⟨he, ?_⟩, h1⟩
  rw [h1]
  exact hm

theorem availabilityKey_match_room (r dr : List Char) (hr : '*' ∉ r) :
    globMatch (("room:availability:").data ++ r ++ [':', '*'])
      (availabilityKey r dr) = true := by
  have hpre : '*' ∉ ("room:availability:").data ++ r ++ [':'] := by
    intro hm
    rcases List.mem_append.mp hm with hm1 | hm2
    · rcases List.mem_append.mp hm1 with hm3 | hm4
      · revert hm3; decide
      · exact hr hm4
    · revert hm2; decide
  have hpat : ("room:availability:").data ++ r ++ [':', '*'] =
      (("room:availability:").data ++ r ++ [':']) ++ ['*'] := by
    simp
  have hkey : availabilityKey r dr =
      (("room:availability:").data ++ r ++ [':']) ++ dr := by
    simp [availabilityKey]
  rw [hpat, hkey, globMatch_append_left _ _ _ hpre]
  exact globMatch_star dr

theorem availabilityKey_match_bs (r dr : List Char) (hr : '*' ∉ r) :
    globMatch (("room:availability:*").data ++ r ++ ['*'])
      (availabilityKey r dr) = true := by
  have hstar : ("room:availability:*").data =
      ("room:availability:").data ++ ['*'] := by decide
  have hpat : ("room:availability:*").data ++ r ++ ['*'] =
      ("room:availability:").data ++ ('*' :: (r ++ ['*'])) := by
    rw [hstar]
    simp
  have hkey : availabilityKey r dr =
      ("room:availability:").data ++ (r ++ ':' :: dr) := by
    simp [availabilityKey]
  rw [hpat, hkey,
    globMatch_append_left ("room:availability:").data _ _ (by decide)]
  have hmid : globMatch (r ++ ['*']) (r ++ ':' :: dr) = true := by
    rw [globMatch_append_left r _ _ hr]
    exact globMatch_star _
  have := globMatch_star_cons (r ++ ['*']) [] (r ++ ':' :: dr) hmid
  simpa using this

theorem searchKey_match (rest : List Char) :
    globMatch (("room:availability:search:*").data)
      (("room:availability:search:").data ++ rest) = true := by
  have hpat : ("room:availability:search:*").data =
      ("room:availability:search:").data ++ ['*'] := by decide
  rw [hpat, globMatch_append_left _ _ _ (by decide)]
  exact globMatch_star rest

theorem getRoomAvailability_redis_invalidate (r dr : List Char)
    (hr : '*' ∉ r) (s : CacheStore) :
    RedisConnection.getRoomAvailability r dr
      (RedisConnection.invalidateRoomCache r s) = none := by
  unfold RedisConnection.getRoomAvailability RedisConnection.invalidateRoomCache
  exact cacheGet_delKeys_of_scan _ s _ (availabilityKey_match_room r dr hr)
    _ (fun k hk => hk)

theorem getRoomAvailability_bs_invalidate (r dr : List Char)
    (hr : '*' ∉ r) (s : CacheStore) :
    RedisConnection.getRoomAvailability r dr
      (BookingService.invalidateRoomCache r s) = none := by
  unfold RedisConnection.getRoomAvailability BookingService.invalidateRoomCache
  exact cacheGet_delKeys_of_scan _ s _ (availabilityKey_match_bs r dr hr)
    _ (fun k hk => List.mem_append_left _ hk)

theorem searchKey_bs_invalidate (r rest : List Char) (s : CacheStore) :
    cacheGet (("room:availability:search:").data ++ rest)
      (BookingService.invalidateRoomCache r s) = none := by
  unfold BookingService.invalidateRoomCache
  exact cacheGet_delKeys_of_scan _ s _ (searchKey_match rest)
    _ (fun k hk => List.mem_append_right _ hk)

/-! ## Helper lemmas: the acquire retry loop -/

namespace RedisLock

theorem acquireGo_result (o : Nat → AttemptOutcome) (r : Nat) : ∀ a : Nat,
    ((acquireGo o a r).1 = .ok true ↔
      ∃ i, i ≤ r ∧ o (a + i) = .success) ∧
    ((acquireGo o a r).1 = .error () ↔
      (∀ i, i ≤ r → o (a + i) ≠ .success) ∧ o (a + r) = .failure) ∧
    ((acquireGo o a r).1 = .ok false ↔
      (∀ i, i ≤ r → o (a + i) ≠ .success) ∧ o (a + r) = .busy) := by
  induction r with
  | zero =>
      intro a
      cases h : o a <;> simp [acquireGo, h]
  | succ r ih =>
      intro a
      have ihs := ih (a + 1)
      cases h : o a with
      | success =>
          refine ⟨?_, ?_, ?_⟩ <;> simp [acquireGo, h]
          · exact ⟨0, by omega, by simpa using h⟩
          · intro hall _
            exact absurd (by simpa using h) (hall 0 (by omega))
          · intro hall _
            exact absurd (by simpa using h) (hall 0 (by omega))
      | busy =>
          have hshift : ∀ i, a + 1 + i = a + (i + 1) := by omega
          have hr : a + 1 + r = a + (r + 1) := by omega
          refine ⟨?_, ?_, ?_⟩ <;>
            simp only [acquireGo, h, ihs.1, ihs.2.1, ihs.2.2]
          · constructor
            · rintro ⟨i, hi, hs⟩
              exact ⟨i + 1, by omega, by rwa [hshift] at hs⟩
            · rintro ⟨i, hi, hs⟩
              cases i with
              | zero =>
                  rw [Nat.add_zero] at hs
                  rw [h] at hs
                  cases hs
              | succ j => exact ⟨j, by omega, by rwa [hshift]⟩
          · rw [hr]
            constructor
            · rintro ⟨hall, hfin⟩
              refine ⟨?_, hfin⟩
              intro i hi
              cases i with
              | zero =>
                  rw [Nat.add_zero, h]
                  intro hc; cases hc
              | succ j =>
                  have := hall j (by omega)
                  rwa [hshift] at this
            · rintro ⟨hall, hfin⟩
              refine ⟨?_, hfin⟩
              intro i hi
              rw [hshift]
              exact hall (i + 1) (by omega)
          · rw [hr]
            constructor
            · rintro ⟨hall, hfin⟩
              refine ⟨?_, hfin⟩
              intro i hi
              cases i with
              | zero =>
                  rw [Nat.add_zero, h]
                  intro hc; cases hc
              | succ j =>
                  have := hall j (by omega)
                  rwa [hshift] at this
            · rintro ⟨hall, hfin⟩
              refine ⟨?_, hfin⟩
              intro i hi
              rw [hshift]
              exact hall (i + 1) (by omega)
      | failure =>
          have hshift : ∀ i, a + 1 + i = a + (i + 1) := by omega
          have hr : a + 1 + r = a + (r + 1) := by omega
          refine ⟨?_, ?_, ?_⟩ <;>
            simp only [acquireGo, h, ihs.1, ihs.2.1, ihs.2.2]
          · constructor
            · rintro ⟨i, hi, hs⟩
              exact ⟨i + 1, by omega, by rwa [hshift] at hs⟩
            · rintro ⟨i, hi, hs⟩
              cases i with
              | zero =>
                  rw [Nat.add_zero] at hs
                  rw [h] at hs
                  cases hs
              | succ j => exact ⟨j, by omega, by rwa [hshift]⟩
          · rw [hr]
            constructor
            · rintro ⟨hall, hfin⟩
              refine ⟨?_, hfin⟩
              intro i hi
              cases i with
              | zero =>
                  rw [Nat.add_zero, h]
                  intro hc; cases hc
              | succ j =>
                  have := hall j (by omega)
                  rwa [hshift] at this
            · rintro ⟨hall, hfin⟩
              refine ⟨?_, hfin⟩
              intro i hi
              rw [hshift]
              exact hall (i + 1) (by omega)
          · rw [hr]
            constructor
            · rintro ⟨hall, hfin⟩
              refine ⟨?_, hfin⟩
              intro i hi
              cases i with
              | zero =>
                  rw [Nat.add_zero, h]
                  intro hc; cases hc
              | succ j =>
                  have := hall j (by omega)
                  rwa [hshift] at this
            · rintro ⟨hall, hfin⟩
              refine ⟨?_, hfin⟩
              intro i hi
              rw [hshift]
              exact hall (i + 1) (by omega)

theorem acquireGo_sleeps_no_success (o : Nat → AttemptOutcome) (r : Nat) :
    ∀ a : Nat, (∀ i, i ≤ r → o (a + i) ≠ .success) →
      (acquireGo o a r).2 = r := by
  induction r with
  | zero =>
      intro a h
      have h0 := h 0 (by omega)
      rw [Nat.add_zero] at h0
      cases ho : o a <;> simp [acquireGo, ho]
  | succ r ih =>
      intro a h
      have h0 := h 0 (by omega)
      rw [Nat.add_zero] at h0
      have hrec := ih (a + 1) (fun i hi => by
        rw [show a + 1 + i = a + (i + 1) by omega]
        exact h (i + 1) (by omega))
      cases ho : o a <;> simp [acquireGo, ho, hrec]
      exact absurd ho h0

theorem acquireGo_sleeps_first_success (o : Nat → AttemptOutcome)
    (i : Nat) : ∀ a r : Nat, i ≤ r → o (a + i) = .success →
      (∀ j, j < i → o (a + j) ≠ .success) → (acquireGo o a r).2 = i := by
  induction i with
  | zero =>
      intro a r _ hs _
      rw [Nat.add_zero] at hs
      cases r <;> simp [acquireGo, hs]
  | succ i ih =>
      intro a r hr hs hmin
      have h0 := hmin 0 (by omega)
      rw [Nat.add_zero] at h0
      obtain ⟨r0, rfl⟩ : ∃ r0, r = r0 + 1 := ⟨r - 1, by omega⟩
      have hrec := ih (a + 1) r0 (by omega)
        (by rw [show a + 1 + i = a + (i + 1) by omega]; exact hs)
        (fun j hj => by
          rw [show a + 1 + j = a + (j + 1) by omega]
          exact hmin (j + 1) (by omega))
      cases ho : o a <;> simp [acquireGo, ho, hrec]
      exact absurd ho h0

theorem acquireGo_congr (o1 o2 : Nat → AttemptOutcome) (r : Nat) :
    ∀ a : Nat, (∀ i, i ≤ r → o1 (a + i) = o2 (a + i)) →
      acquireGo o1 a r = acquireGo o2 a r := by
  induction r with
  | zero =>
      intro a h
      have h0 := h 0 (by omega)
      rw [Nat.add_zero] at h0
      cases ho : o2 a <;> simp [acquireGo, h0, ho]
  | succ r ih =>
      intro a h
      have h0 := h 0 (by omega)
      rw [Nat.add_zero] at h0
      have hrec := ih (a + 1) (fun i hi => by
        rw [show a + 1 + i = a + (i + 1) by omega]
        exact h (i + 1) (by omega))
      cases ho : o2 a <;> simp [acquireGo, h0, ho, hrec]

end RedisLock

/-! ## Helper lemmas: the booking validator and the request schema -/

theorem ite_single_eq_nil (c : Prop) [Decidable c] (m : String) :
    ((if c then [m] else []) = []) ↔ ¬ c := by
  split <;> simp_all

theorem ite_nil_eq_nil (c : Prop) [Decidable c] (m : String) :
    ((if c then ([] : List String) else [m]) = []) ↔ c := by
  split <;> simp_all

theorem count_ite (c : Prop) [Decidable c] (m m2 : String) :
    ((if c then [m2] else []).count m) = if c ∧ m2 = m then 1 else 0 := by
  split_ifs with h1 h2 h3 <;> simp_all [List.count_singleton]

theorem validateBooking_isValid_iff (now : Int)
    (rooms : List (List Char × Room)) (bookings : List IBooking)
    (d : ICreateBooking) :
    (BookingService.validateBooking now rooms bookings d).isValid = true ↔
      d.checkInDate < d.checkOutDate ∧ now ≤ d.checkInDate ∧
      0 < d.numberOfGuests ∧
      ∃ room, lookupRoom rooms d.roomId = some room ∧
        room.isActive = true ∧
        d.numberOfGuests ≤ room.maxOccupancy ∧
        findConflicts bookings d.roomId d.checkInDate d.checkOutDate none
          = [] := by
  unfold BookingService.validateBooking
  cases hl : lookupRoom rooms d.roomId with
  | none => simp [hl]
  | some room =>
      simp only [hl, List.isEmpty_iff, List.append_eq_nil,
        ite_single_eq_nil, Option.some.injEq]
      constructor
      · rintro ⟨⟨⟨⟨⟨h1, h2⟩, h3⟩, h4⟩, h5⟩, h6⟩
        refine ⟨by omega, by omega, by omega, room, rfl, by simpa using h4,
          by omega, ?_⟩
        rcases Nat.eq_zero_or_pos (findConflicts bookings d.roomId
          d.checkInDate d.checkOutDate none).length with hz | hp
        · exact List.length_eq_zero.mp hz
        · exact absurd hp h6
      · rintro ⟨h1, h2, h3, room2, hr2, h4, h5, h6⟩
        cases hr2
        refine ⟨⟨⟨⟨⟨by omega, by omega⟩, by omega⟩, by simp [h4]⟩,
          by omega⟩, by simp [h6]⟩

theorem validateBooking_errors_conflict (now : Int)
    (rooms : List (List Char × Room)) (bookings : List IBooking)
    (d : ICreateBooking) (room : Room)
    (h1 : d.checkInDate < d.checkOutDate) (h2 : now ≤ d.checkInDate)
    (h3 : 0 < d.numberOfGuests)
    (hl : lookupRoom rooms d.roomId = some room)
    (h4 : room.isActive = true)
    (h5 : d.numberOfGuests ≤ room.maxOccupancy)
    (h6 : findConflicts bookings d.roomId d.checkInDate d.checkOutDate none
      ≠ []) :
    BookingService.validateBooking now rooms bookings d =
      { isValid := false, errors := [conflictMsg] } := by
  unfold BookingService.validateBooking
  simp only [hl]
  have hp : 0 < (findConflicts bookings d.roomId d.checkInDate
      d.checkOutDate none).length := List.length_pos.mpr h6
  rw [if_neg (by omega), if_neg (by omega), if_neg (by omega),
    if_neg (by simp [h4]), if_neg (by omega), if_pos hp]
  simp [conflictMsg]

theorem validateBooking_counts (now : Int)
    (rooms : List (List Char × Room)) (bookings : List IBooking)
    (d : ICreateBooking) (room : Room)
    (hl : lookupRoom rooms d.roomId = some room) :
    ((BookingService.validateBooking now rooms bookings d).errors.count
        "Check-in date must be before check-out date" =
      if d.checkInDate < d.checkOutDate then 0 else 1) ∧
    ((BookingService.validateBooking now rooms bookings d).errors.count
        "Check-in date cannot be in the past" =
      if now ≤ d.checkInDate then 0 else 1) ∧
    ((BookingService.validateBooking now rooms bookings d).errors.count
        "Number of guests must be greater than 0" =
      if 0 < d.numberOfGuests then 0 else 1) ∧
    ((BookingService.validateBooking now rooms bookings d).errors.count
        "Number of guests exceeds room capacity" =
      if d.numberOfGuests ≤ room.maxOccupancy then 0 else 1) := by
  unfold BookingService.validateBooking
  simp only [hl]
  refine ⟨?_, ?_, ?_, ?_⟩ <;>
    · simp only [List.count_append, count_ite]
      split_ifs <;> simp_all <;> omega

theorem count_ite_inv (c : Prop) [Decidable c] (m m2 : String) :
    ((if c then [] else [m2]).count m) = if ¬ c ∧ m2 = m then 1 else 0 := by
  split_ifs with h1 h2 h3 <;> simp_all [List.count_singleton]

theorem schemaAccepts_iff (now : Int) (r : CreateBookingRequest) :
    createBookingSchemaAccepts now r = true ↔
      now < r.checkInDate ∧ r.numberOfGuests.den = 1 ∧
      1 ≤ r.numberOfGuests ∧ r.numberOfGuests ≤ 10 ∧
      r.checkInDate < r.checkOutDate ∧
      diffDaysCeil r.checkInDate r.checkOutDate ≤ 30 := by
  unfold createBookingSchemaAccepts createBookingSchemaIssues
  simp only [List.isEmpty_iff, List.append_eq_nil, ite_nil_eq_nil]
  tauto

theorem schemaIssues_count30 (now : Int) (r : CreateBookingRequest) :
    (createBookingSchemaIssues now r).count "Booking cannot exceed 30 days" =
      if diffDaysCeil r.checkInDate r.checkOutDate ≤ 30 then 0 else 1 := by
  unfold createBookingSchemaIssues
  simp only [List.count_append, count_ite_inv]
  split_ifs <;> simp_all

theorem mem_findConflicts (bookings : List IBooking) (roomId : List Char)
    (ci co : Int) (excl : Option Nat) (b : IBooking) :
    b ∈ findConflicts bookings roomId ci co excl ↔
      b ∈ bookings ∧ b.roomId = roomId ∧
      (b.status = BookingStatus.pending ∨
        b.status = BookingStatus.confirmed) ∧
      b.checkInDate < co ∧ b.checkOutDate > ci ∧
      ∀ e, excl = some e → b.id ≠ e := by
  unfold findConflicts isActiveStatus
  cases excl with
  | none => simp [List.mem_filter, and_assoc]
  | some e => simp [List.mem_filter, and_assoc]

/-! ## Helper lemmas: the two-process race -/

theorem findConflicts_canonical (ctx : RaceCtx) (l : List IBooking)
    (hcan : ∀ b ∈ l, b = ctx.bookingOf true ∨ b = ctx.bookingOf false)
    (hlt : ctx.data.checkInDate < ctx.data.checkOutDate) :
    findConflicts l ctx.data.roomId ctx.data.checkInDate
      ctx.data.checkOutDate none = l := by
  unfold findConflicts
  rw [List.filter_eq_self]
  intro b hb
  rcases hcan b hb with h | h <;>
    subst h <;> simp [RaceCtx.bookingOf, isActiveStatus, hlt]

theorem intercalate_single (s m : String) :
    String.intercalate s [m] = m := by
  simp [String.intercalate, String.intercalate.go]

end HotelBooking

namespace HotelBooking

theorem validateBooking_race (ctx : RaceCtx)
    (H : (BookingService.validateBooking ctx.now ctx.rooms []
      ctx.data).isValid = true)
    (l : List IBooking)
    (hcan : ∀ b ∈ l, b = ctx.bookingOf true ∨ b = ctx.bookingOf false) :
    (l = [] → (BookingService.validateBooking ctx.now ctx.rooms l
      ctx.data).isValid = true) ∧
    (l ≠ [] → BookingService.validateBooking ctx.now ctx.rooms l ctx.data =
      { isValid := false, errors := [conflictMsg] }) := by
  obtain ⟨h1, h2, h3, room, hl, h4, h5, -⟩ :=
    (validateBooking_isValid_iff _ _ _ _).mp H
  constructor
  · rintro rfl
    exact H
  · intro hne
    exact validateBooking_errors_conflict _ _ _ _ room h1 h2 h3 hl h4 h5
      (by rw [findConflicts_canonical ctx l hcan h1]; exact hne)

theorem raceInv_init (ctx : RaceCtx) : RaceInv ctx raceInit := by
  constructor <;>
    simp [raceInit, isActiveAt, isInserted, countInserted]

theorem raceInv_step (ctx : RaceCtx)
    (H : (BookingService.validateBooking ctx.now ctx.rooms []
      ctx.data).isValid = true)
    (i : Bool) (c : SysConfig) (inv : RaceInv ctx c) :
    RaceInv ctx (raceStep ctx i c) := by
  obtain ⟨hLock, hCount, hCanon, hMem, hEmpty, hCMsg, hLF, hLen⟩ := inv
  cases hpc : c.proc i with
  | acquiring r =>
      cases hlh : c.lockHolder with
      | none =>
          simp only [raceStep, hpc, hlh]
          constructor
          · intro j
            by_cases hj : j = i
            · subst hj
              simp [isActiveAt]
            · have hne : (j == i) = false := by simp [hj]
              simp only [hne]
              simp only [Bool.false_eq_true, if_false]
              rw [hLock j, hlh]
              constructor
              · intro hc
                cases hc
              · intro hc
                exact absurd (Option.some.injEq i j ▸ hc) (by
                  intro h2
                  exact hj ((Option.some.inj hc).symm))
          · rw [hCount]
            unfold countInserted
            cases i <;> simp [isInserted, hpc]
          · exact hCanon
          · intro j hj
            by_cases hji : j = i
            · subst hji
              simp [isInserted] at hj
            · have hne : (j == i) = false := by simp [hji]
              simp only [hne, Bool.false_eq_true, if_false] at hj
              exact hMem j hj
          · intro j hj
            by_cases hji : j = i
            · subst hji
              simp at hj
            · have hne : (j == i) = false := by simp [hji]
              simp only [hne, Bool.false_eq_true, if_false] at hj
              exact hEmpty j hj
          · intro j msg hj
            by_cases hji : j = i
            · subst hji
              simp at hj
            · have hne : (j == i) = false := by simp [hji]
              simp only [hne, Bool.false_eq_true, if_false] at hj
              exact hCMsg j msg hj
          · intro j hj
            by_cases hji : j = i
            · subst hji
              simp at hj
            · left
              simp
          · exact hLen
      | some k =>
          have hki : ¬ c.lockHolder = some i := by
            rw [← hLock i, hpc]
            simp [isActiveAt]
          cases r with
          | zero =>
              simp only [raceStep, hpc, hlh]
              constructor
              · intro j
                by_cases hj : j = i
                · subst hj
                  simp only [beq_self_eq_true, if_pos rfl]
                  rw [hlh] at hki
                  simp [isActiveAt]
                  exact fun hc => hki (by rw [hc])
                · have hne : (j == i) = false := by simp [hj]
                  simp only [hne, Bool.false_eq_true, if_false]
                  rw [hLock j, hlh]
              · rw [hCount]
                unfold countInserted
                cases i <;> simp [isInserted, hpc]
              · exact hCanon
              · intro j hj
                by_cases hji : j = i
                · subst hji
                  simp [isInserted] at hj
                · have hne : (j == i) = false := by simp [hji]
                  simp only [hne, Bool.false_eq_true, if_false] at hj
                  exact hMem j hj
              · intro j hj
                by_cases hji : j = i
                · subst hji
                  simp at hj
                · have hne : (j == i) = false := by simp [hji]
                  simp only [hne, Bool.false_eq_true, if_false] at hj
                  exact hEmpty j hj
              · intro j msg hj
                by_cases hji : j = i
                · subst hji
                  simp at hj
                · have hne : (j == i) = false := by simp [hji]
                  simp only [hne, Bool.false_eq_true, if_false] at hj
                  exact hCMsg j msg hj
              · intro j hj
                left
                simp
              · exact hLen
          | succ r0 =>
              simp only [raceStep, hpc, hlh]
              constructor
              · intro j
                by_cases hj : j = i
                · subst hj
                  simp only [beq_self_eq_true, if_pos rfl]
                  rw [hlh] at hki
                  simp [isActiveAt]
                  exact fun hc => hki (by rw [hc])
                · have hne : (j == i) = false := by simp [hj]
                  simp only [hne, Bool.false_eq_true, if_false]
                  rw [hLock j, hlh]
              · rw [hCount]
                unfold countInserted
                cases i <;> simp [isInserted, hpc]
              · exact hCanon
              · intro j hj
                by_cases hji : j = i
                · subst hji
                  simp [isInserted] at hj
                · have hne : (j == i) = false := by simp [hji]
                  simp only [hne, Bool.false_eq_true, if_false] at hj
                  exact hMem j hj
              · intro j hj
                by_cases hji : j = i
                · subst hji
                  simp at hj
                · have hne : (j == i) = false := by simp [hji]
                  simp only [hne, Bool.false_eq_true, if_false] at hj
                  exact hEmpty j hj
              · intro j msg hj
                by_cases hji : j = i
                · subst hji
                  simp at hj
                · have hne : (j == i) = false := by simp [hji]
                  simp only [hne, Bool.false_eq_true, if_false] at hj
                  exact hCMsg j msg hj
              · intro j hj
                left
                simp
              · exact hLen
  | validating =>
      have hAct : c.lockHolder = some i := by
        rw [← hLock i, hpc]
        simp [isActiveAt]
      obtain ⟨hv1, hv2⟩ := validateBooking_race ctx H c.bookings hCanon
      by_cases hvv : (BookingService.validateBooking ctx.now ctx.rooms
          c.bookings ctx.data).isValid = true
      · have hb0 : c.bookings = [] := by
          by_cases hb : c.bookings = []
          · exact hb
          · rw [hv2 hb] at hvv
            simp at hvv
        simp only [raceStep, hpc, hvv, if_pos rfl, if_true]
        constructor
        · intro j
          by_cases hj : j = i
          · subst hj
            simp only [beq_self_eq_true, if_pos rfl]
            simp [isActiveAt, hAct]
          · have hne : (j == i) = false := by simp [hj]
            simp only [hne, Bool.false_eq_true, if_false]
            exact hLock j
        · rw [hCount]
          unfold countInserted
          cases i <;> simp [isInserted, hpc]
        · exact hCanon
        · intro j hj
          by_cases hji : j = i
          · subst hji
            simp [isInserted] at hj
          · have hne : (j == i) = false := by simp [hji]
            simp only [hne, Bool.false_eq_true, if_false] at hj
            exact hMem j hj
        · intro j hj
          exact hb0
        · intro j msg hj
          by_cases hji : j = i
          · subst hji
            simp at hj
          · have hne : (j == i) = false := by simp [hji]
            simp only [hne, Bool.false_eq_true, if_false] at hj
            exact hCMsg j msg hj
        · intro j hj
          by_cases hji : j = i
          · subst hji
            simp only [beq_self_eq_true, if_pos rfl] at hj
            cases hj
          · have hne : (j == i) = false := by simp [hji]
            simp only [hne, Bool.false_eq_true, if_false] at hj
            exact hLF j hj
        · exact hLen
      · have hbne : c.bookings ≠ [] := by
          intro hb
          exact hvv (hv1 hb)
        have hres := hv2 hbne
        have herr : (BookingService.validateBooking ctx.now ctx.rooms
            c.bookings ctx.data).errors = [conflictMsg] := by
          rw [hres]
        have hvfalse : (BookingService.validateBooking ctx.now ctx.rooms
            c.bookings ctx.data).isValid = false := by
          rw [hres]
        simp only [raceStep, hpc, hvfalse, Bool.false_eq_true, if_false]
        constructor
        · intro j
          by_cases hj : j = i
          · subst hj
            simp only [beq_self_eq_true, if_pos rfl]
            simp [isActiveAt, hAct]
          · have hne : (j == i) = false := by simp [hj]
            simp only [hne, Bool.false_eq_true, if_false]
            exact hLock j
        · rw [hCount]
          unfold countInserted
          cases i <;> simp [isInserted, hpc]
        · exact hCanon
        · intro j hj
          by_cases hji : j = i
          · subst hji
            simp [isInserted] at hj
          · have hne : (j == i) = false := by simp [hji]
            simp only [hne, Bool.false_eq_true, if_false] at hj
            exact hMem j hj
        · intro j hj
          by_cases hji : j = i
          · subst hji
            simp at hj
          · have hne : (j == i) = false := by simp [hji]
            simp only [hne, Bool.false_eq_true, if_false] at hj
            exact hEmpty j hj
        · intro j msg hj
          by_cases hji : j = i
          · subst hji
            simp only [beq_self_eq_true, if_pos rfl] at hj
            rcases hj with hj | hj
            · cases hj
              refine ⟨?_, hbne⟩
              rw [herr, intercalate_single]
            · cases hj
          · have hne : (j == i) = false := by simp [hji]
            simp only [hne, Bool.false_eq_true, if_false] at hj
            exact hCMsg j msg hj
        · intro j hj
          by_cases hji : j = i
          · subst hji
            simp only [beq_self_eq_true, if_pos rfl] at hj
            cases hj
          · have hne : (j == i) = false := by simp [hji]
            simp only [hne, Bool.false_eq_true, if_false] at hj
            exact hLF j hj
        · exact hLen
  | inserting =>
      have hb0 : c.bookings = [] := hEmpty i hpc
      have hAct : c.lockHolder = some i := (hLock i).mp (by rw [hpc]; rfl)
      have h0 : countInserted c = 0 := by
        rw [← hCount, hb0]
        rfl
      have hnoIns : ∀ j, isInserted (c.proc j) = false := by
        intro j
        unfold countInserted at h0
        cases hIt : isInserted (c.proc true) <;>
          cases hIf : isInserted (c.proc false) <;>
            rw [hIt, hIf] at h0 <;> simp at h0 <;> cases j <;> assumption
      simp only [raceStep, hpc]
      constructor
      · intro j
        by_cases hj : j = i
        · subst hj
          simp [isActiveAt, hAct]
        · have hne : (j == i) = false := by simp [hj]
          simp only [hne, Bool.false_eq_true, if_false]
          exact hLock j
      · have hRO : isInserted ProcState.releasingOk = true := rfl
        cases i <;>
          simp [countInserted, hb0, hnoIns true, hnoIns false, hRO]
      · intro b hb
        rw [hb0] at hb
        simp at hb
        subst hb
        cases i
        · right
          rfl
        · left
          rfl
      · intro j hj
        by_cases hji : j = i
        · subst hji
          simp
        · have hne : (j == i) = false := by simp [hji]
          simp only [hne, Bool.false_eq_true, if_false] at hj
          rw [hnoIns j] at hj
          cases hj
      · intro j hj
        by_cases hji : j = i
        · subst hji
          simp only [beq_self_eq_true, if_pos rfl] at hj
          cases hj
        · have hne : (j == i) = false := by simp [hji]
          simp only [hne, Bool.false_eq_true, if_false] at hj
          have hActj : c.lockHolder = some j := (hLock j).mp (by rw [hj]; rfl)
          rw [hAct] at hActj
          exact absurd (Option.some.inj hActj).symm hji
      · intro j msg hj
        by_cases hji : j = i
        · subst hji
          simp at hj
        · have hne : (j == i) = false := by simp [hji]
          simp only [hne, Bool.false_eq_true, if_false] at hj
          exact ⟨(hCMsg j msg hj).1, by simp⟩
      · intro j hj
        right
        simp
      · simp [hb0]
  | releasingOk =>
      have hAct : c.lockHolder = some i := (hLock i).mp (by rw [hpc]; rfl)
      have hbmem : ctx.bookingOf i ∈ c.bookings := hMem i (by rw [hpc]; rfl)
      simp only [raceStep, hpc, hAct, beq_self_eq_true, eq_self_iff_true,
        if_true]
      constructor
      · intro j
        by_cases hj : j = i
        · subst hj
          simp [isActiveAt]
        · have hne : (j == i) = false := by simp [hj]
          simp only [hne, Bool.false_eq_true, if_false]
          constructor
          · intro h
            have h2 := (hLock j).mp h
            rw [hAct] at h2
            exact absurd (Option.some.inj h2).symm hj
          · intro h
            cases h
      · rw [hCount]
        unfold countInserted
        cases i <;> simp [isInserted, hpc]
      · exact hCanon
      · intro j hj
        by_cases hji : j = i
        · subst hji
          exact hbmem
        · have hne : (j == i) = false := by simp [hji]
          simp only [hne, Bool.false_eq_true, if_false] at hj
          exact hMem j hj
      · intro j hj
        by_cases hji : j = i
        · subst hji
          simp only [beq_self_eq_true, if_pos rfl] at hj
          cases hj
        · have hne : (j == i) = false := by simp [hji]
          simp only [hne, Bool.false_eq_true, if_false] at hj
          exact hEmpty j hj
      · intro j msg hj
        by_cases hji : j = i
        · subst hji
          simp at hj
        · have hne : (j == i) = false := by simp [hji]
          simp only [hne, Bool.false_eq_true, if_false] at hj
          exact hCMsg j msg hj
      · intro j hj
        right
        exact List.ne_nil_of_mem hbmem
      · exact hLen
  | releasingErr msg =>
      have hAct : c.lockHolder = some i := (hLock i).mp (by rw [hpc]; rfl)
      have hCM := hCMsg i msg (Or.inl hpc)
      simp only [raceStep, hpc, hAct, beq_self_eq_true, eq_self_iff_true,
        if_true]
      constructor
      · intro j
        by_cases hj : j = i
        · subst hj
          simp [isActiveAt]
        · have hne : (j == i) = false := by simp [hj]
          simp only [hne, Bool.false_eq_true, if_false]
          constructor
          · intro h
            have h2 := (hLock j).mp h
            rw [hAct] at h2
            exact absurd (Option.some.inj h2).symm hj
          · intro h
            cases h
      · rw [hCount]
        unfold countInserted
        cases i <;> simp [isInserted, hpc]
      · exact hCanon
      · intro j hj
        by_cases hji : j = i
        · subst hji
          simp [isInserted] at hj
        · have hne : (j == i) = false := by simp [hji]
          simp only [hne, Bool.false_eq_true, if_false] at hj
          exact hMem j hj
      · intro j hj
        by_cases hji : j = i
        · subst hji
          simp only [beq_self_eq_true, if_pos rfl] at hj
          cases hj
        · have hne : (j == i) = false := by simp [hji]
          simp only [hne, Bool.false_eq_true, if_false] at hj
          exact hEmpty j hj
      · intro j msg2 hj
        by_cases hji : j = i
        · subst hji
          simp only [beq_self_eq_true, if_pos rfl] at hj
          rcases hj with hj | hj
          · cases hj
          · cases hj
            exact hCM
        · have hne : (j == i) = false := by simp [hji]
          simp only [hne, Bool.false_eq_true, if_false] at hj
          exact hCMsg j msg2 hj
      · intro j hj
        right
        exact hCM.2
      · exact hLen
  | doneSuccess =>
      simp only [raceStep, hpc]
      exact ⟨hLock, hCount, hCanon, hMem, hEmpty, hCMsg, hLF, hLen⟩
  | doneConflict msg =>
      simp only [raceStep, hpc]
      exact ⟨hLock, hCount, hCanon, hMem, hEmpty, hCMsg, hLF, hLen⟩
  | doneLockFail =>
      simp only [raceStep, hpc]
      exact ⟨hLock, hCount, hCanon, hMem, hEmpty, hCMsg, hLF, hLen⟩

theorem terminal_not_active (p : ProcState) (h : isTerminal p = true) :
    isActiveAt p = false := by
  cases p <;> simp_all [isTerminal, isActiveAt]

theorem length_one_mem (l : List IBooking) (b : IBooking) (hm : b ∈ l)
    (hl : l.length = 1) : l = [b] := by
  obtain ⟨a, rfl⟩ := List.length_eq_one.mp hl
  simp at hm
  rw [hm]

theorem raceInv_run (ctx : RaceCtx)
    (H : (BookingService.validateBooking ctx.now ctx.rooms []
      ctx.data).isValid = true) (sched : List Bool) :
    RaceInv ctx (raceRun ctx sched) := by
  unfold raceRun
  have main : ∀ (l : List Bool) (c : SysConfig), RaceInv ctx c →
      RaceInv ctx (l.foldl (fun c i => raceStep ctx i c) c) := by
    intro l
    induction l with
    | nil => exact fun c h => h
    | cons x l ih =>
        intro c h
        exact ih _ (raceInv_step ctx H x c h)
  exact main sched raceInit (raceInv_init ctx)

/-- C1: for every interleaving of two concurrent `createBooking` calls
with the same room and the same exact check-in/check-out interval (hence
the same derived lock key) in which both calls have returned, exactly one
call succeeds and persists its reservation, and the other fails with the
booking-conflict validation error or with the failed-to-acquire-lock
error. The hypothesis states that each call on its own (against the empty
collection) would pass validation; the lock TTL is assumed not to elapse
mid-run. -/
theorem race_exactly_one (ctx : RaceCtx)
    (H : (BookingService.validateBooking ctx.now ctx.rooms []
      ctx.data).isValid = true) (sched : List Bool)
    (hT : isTerminal ((raceRun ctx sched).proc true) = true)
    (hF : isTerminal ((raceRun ctx sched).proc false) = true) :
    ∃ w : Bool, (raceRun ctx sched).proc w = ProcState.doneSuccess ∧
      (raceRun ctx sched).bookings = [ctx.bookingOf w] ∧
      ((raceRun ctx sched).proc (!w) = ProcState.doneConflict conflictMsg ∨
        (raceRun ctx sched).proc (!w) = ProcState.doneLockFail) ∧
      (raceRun ctx sched).proc (!w) ≠ ProcState.doneSuccess := by
  obtain ⟨hLock, hCount, hCanon, hMem, hEmpty, hCMsg, hLF, hLen⟩ :=
    raceInv_run ctx H sched
  have hfree : (raceRun ctx sched).lockHolder = none := by
    cases hlh : (raceRun ctx sched).lockHolder with
    | none => rfl
    | some k =>
        have hact := (hLock k).mpr hlh
        have hterm : isTerminal ((raceRun ctx sched).proc k) = true := by
          cases k
          · exact hF
          · exact hT
        rw [terminal_not_active _ hterm] at hact
        cases hact
  cases hpt : (raceRun ctx sched).proc true <;> rw [hpt] at hT <;>
    first
      | (simp [isTerminal] at hT)
      | skip
  case doneSuccess =>
      cases hpf : (raceRun ctx sched).proc false <;> rw [hpf] at hF <;>
        first
          | (simp [isTerminal] at hF)
          | skip
      case doneSuccess =>
          have hci : countInserted (raceRun ctx sched) = 2 := by
            simp [countInserted, hpt, hpf, isInserted]
          omega
      case doneConflict m =>
          have hci : countInserted (raceRun ctx sched) = 1 := by
            simp [countInserted, hpt, hpf, isInserted]
          have hmem := hMem true (by rw [hpt]; rfl)
          have hbook := length_one_mem _ _ hmem (by omega)
          have hm := hCMsg false m (Or.inr hpf)
          refine ⟨true, hpt, hbook, ?_, ?_⟩
          · left
            rw [show (!true) = false from rfl, hpf, hm.1]
          · rw [show (!true) = false from rfl, hpf]
            intro hcon
            cases hcon
      case doneLockFail =>
          have hci : countInserted (raceRun ctx sched) = 1 := by
            simp [countInserted, hpt, hpf, isInserted]
          have hmem := hMem true (by rw [hpt]; rfl)
          have hbook := length_one_mem _ _ hmem (by omega)
          refine ⟨true, hpt, hbook, ?_, ?_⟩
          · right
            rw [show (!true) = false from rfl, hpf]
          · rw [show (!true) = false from rfl, hpf]
            intro hcon
            cases hcon
  case doneConflict m =>
      cases hpf : (raceRun ctx sched).proc false <;> rw [hpf] at hF <;>
        first
          | (simp [isTerminal] at hF)
          | skip
      case doneSuccess =>
          have hci : countInserted (raceRun ctx sched) = 1 := by
            simp [countInserted, hpt, hpf, isInserted]
          have hmem := hMem false (by rw [hpf]; rfl)
          have hbook := length_one_mem _ _ hmem (by omega)
          have hm := hCMsg true m (Or.inr hpt)
          refine ⟨false, hpf, hbook, ?_, ?_⟩
          · left
            rw [show (!false) = true from rfl, hpt, hm.1]
          · rw [show (!false) = true from rfl, hpt]
            intro hcon
            cases hcon
      case doneConflict m2 =>
          have hci : countInserted (raceRun ctx sched) = 0 := by
            simp [countInserted, hpt, hpf, isInserted]
          have hne := (hCMsg true m (Or.inr hpt)).2
          have : (raceRun ctx sched).bookings = [] := by
            have : (raceRun ctx sched).bookings.length = 0 := by omega
            exact List.length_eq_zero.mp this
          exact absurd this hne
      case doneLockFail =>
          have hci : countInserted (raceRun ctx sched) = 0 := by
            simp [countInserted, hpt, hpf, isInserted]
          have hne := (hCMsg true m (Or.inr hpt)).2
          have : (raceRun ctx sched).bookings = [] := by
            have : (raceRun ctx sched).bookings.length = 0 := by omega
            exact List.length_eq_zero.mp this
          exact absurd this hne
  case doneLockFail =>
      cases hpf : (raceRun ctx sched).proc false <;> rw [hpf] at hF <;>
        first
          | (simp [isTerminal] at hF)
          | skip
      case doneSuccess =>
          have hci : countInserted (raceRun ctx sched) = 1 := by
            simp [countInserted, hpt, hpf, isInserted]
          have hmem := hMem false (by rw [hpf]; rfl)
          have hbook := length_one_mem _ _ hmem (by omega)
          refine ⟨false, hpf, hbook, ?_, ?_⟩
          · right
            rw [show (!false) = true from rfl, hpt]
          · rw [show (!false) = true from rfl, hpt]
            intro hcon
            cases hcon
      case doneConflict m2 =>
          have hci : countInserted (raceRun ctx sched) = 0 := by
            simp [countInserted, hpt, hpf, isInserted]
          have hne := (hCMsg false m2 (Or.inr hpf)).2
          have : (raceRun ctx sched).bookings = [] := by
            have : (raceRun ctx sched).bookings.length = 0 := by omega
            exact List.length_eq_zero.mp this
          exact absurd this hne
      case doneLockFail =>
          have hci : countInserted (raceRun ctx sched) = 0 := by
            simp [countInserted, hpt, hpf, isInserted]
          rcases hLF true hpt with hcon | hne
          · exact absurd hfree hcon
          · have : (raceRun ctx sched).bookings = [] := by
              have : (raceRun ctx sched).bookings.length = 0 := by omega
              exact List.length_eq_zero.mp this
            exact absurd this hne

end HotelBooking

namespace HotelBooking

theorem mem_ite_single (c : Prop) [Decidable c] (m m2 : String) :
    m ∈ (if c then [m2] else []) ↔ c ∧ m = m2 := by
  split_ifs with h <;> simp_all

theorem validateBooking_conflictMsg_mem (now : Int)
    (rooms : List (List Char × Room)) (bookings : List IBooking)
    (d : ICreateBooking) (room : Room)
    (hl : lookupRoom rooms d.roomId = some room) :
    conflictMsg ∈ (BookingService.validateBooking now rooms bookings
        d).errors ↔
      findConflicts bookings d.roomId d.checkInDate d.checkOutDate none
        ≠ [] := by
  unfold BookingService.validateBooking
  simp only [hl, conflictMsg, List.mem_append, mem_ite_single]
  simp [List.length_pos]

end HotelBooking

namespace HotelBooking

/-- C2: the conflict query reports a conflict for candidate
`[checkIn, checkOut)` iff some reservation of the same room whose status
is `pending` or `confirmed` satisfies
`existing.checkIn < candidate.checkOut ∧ existing.checkOut >
candidate.checkIn` (half-open semantics, with the optional exclusion
honoured); `validateBooking` surfaces exactly that condition as its
conflict message; and concretely an active reservation [Feb 1, Feb 5)
conflicts with [Feb 3, Feb 6) but not with [Feb 5, Feb 8). -/
theorem conflict_check_iff (bookings : List IBooking) (roomId : List Char)
    (ci co : Int) (excl : Option Nat) (b : IBooking) (now : Int)
    (rooms : List (List Char × Room)) (d : ICreateBooking) (room : Room)
    (hl : lookupRoom rooms d.roomId = some room) :
    (b ∈ findConflicts bookings roomId ci co excl ↔
      b ∈ bookings ∧ b.roomId = roomId ∧
      (b.status = BookingStatus.pending ∨
        b.status = BookingStatus.confirmed) ∧
      b.checkInDate < co ∧ b.checkOutDate > ci ∧
      ∀ e, excl = some e → b.id ≠ e) ∧
    (conflictMsg ∈ (BookingService.validateBooking now rooms bookings
        d).errors ↔
      findConflicts bookings d.roomId d.checkInDate d.checkOutDate none
        ≠ []) ∧
    (findConflicts
        [{ id := 1, userId := 7, roomId := ['r'],
           checkInDate := 1706745600000, checkOutDate := 1707091200000,
           numberOfGuests := 2, totalAmount := 400,
           status := BookingStatus.pending,
           paymentStatus := PaymentStatus.pending }] ['r']
        1706918400000 1707177600000 none).length = 1 ∧
    (findConflicts
        [{ id := 1, userId := 7, roomId := ['r'],
           checkInDate := 1706745600000, checkOutDate := 1707091200000,
           numberOfGuests := 2, totalAmount := 400,
           status := BookingStatus.pending,
           paymentStatus := PaymentStatus.pending }] ['r']
        1707091200000 1707350400000 none) = [] :=
  ⟨mem_findConflicts bookings roomId ci co excl b,
   validateBooking_conflictMsg_mem now rooms bookings d room hl,
   by decide, by decide⟩

theorem conflict_check_iff_witness :
    (conflictMsg ∈ (BookingService.validateBooking 0
        [(['r'], { isActive := true, maxOccupancy := 5, basePrice := 100 })]
        [{ id := 1, userId := 7, roomId := ['r'],
           checkInDate := 1706745600000, checkOutDate := 1707091200000,
           numberOfGuests := 2, totalAmount := 400,
           status := BookingStatus.pending,
           paymentStatus := PaymentStatus.pending }]
        { roomId := ['r'], checkInDate := 1706918400000,
          checkOutDate := 1707177600000, numberOfGuests := 2 }).errors ↔
      findConflicts
        [{ id := 1, userId := 7, roomId := ['r'],
           checkInDate := 1706745600000, checkOutDate := 1707091200000,
           numberOfGuests := 2, totalAmount := 400,
           status := BookingStatus.pending,
           paymentStatus := PaymentStatus.pending }] ['r']
        1706918400000 1707177600000 none ≠ []) :=
  (conflict_check_iff
    [{ id := 1, userId := 7, roomId := ['r'],
       checkInDate := 1706745600000, checkOutDate := 1707091200000,
       numberOfGuests := 2, totalAmount := 400,
       status := BookingStatus.pending,
       paymentStatus := PaymentStatus.pending }] ['r'] 0 0 none
    { id := 1, userId := 7, roomId := ['r'],
      checkInDate := 1706745600000, checkOutDate := 1707091200000,
      numberOfGuests := 2, totalAmount := 400,
      status := BookingStatus.pending,
      paymentStatus := PaymentStatus.pending } 0
    [(['r'], { isActive := true, maxOccupancy := 5, basePrice := 100 })]
    { roomId := ['r'], checkInDate := 1706918400000,
      checkOutDate := 1707177600000, numberOfGuests := 2 }
    { isActive := true, maxOccupancy := 5, basePrice := 100 }
    (by decide)).2.1

end HotelBooking

namespace HotelBooking

/-- C3: `withLock` runs the protected function only when acquisition
returns `true`, and then releases the lock on both the return path and
the throw path, propagating the function result or error; when
acquisition returns `false` or throws, it raises the corresponding error
without running the function, and release happens exactly when the
function ran. -/
theorem withLock_contract {σ E α : Type} (acq : Except Unit Bool)
    (fn : σ → Except E α × σ) (doRelease : σ → σ) (s : σ) :
    (acq = .ok true →
      (RedisLock.withLock acq fn doRelease s).2.2 =
        [RedisLock.LockEvent.fnStarted,
         RedisLock.LockEvent.releaseCalled] ∧
      (RedisLock.withLock acq fn doRelease s).2.1 = doRelease (fn s).2 ∧
      (∀ v, (fn s).1 = .ok v →
        (RedisLock.withLock acq fn doRelease s).1 = .ok v) ∧
      (∀ e, (fn s).1 = .error e →
        (RedisLock.withLock acq fn doRelease s).1 =
          .error (RedisLock.WithLockError.fnError e))) ∧
    (acq = .ok false →
      (RedisLock.withLock acq fn doRelease s).1 =
        .error RedisLock.WithLockError.lockAcquisitionFailed ∧
      (RedisLock.withLock acq fn doRelease s).2.1 = s ∧
      RedisLock.LockEvent.fnStarted ∉
        (RedisLock.withLock acq fn doRelease s).2.2) ∧
    (∀ u : Unit, acq = .error u →
      (RedisLock.withLock acq fn doRelease s).1 =
        .error RedisLock.WithLockError.lockStoreError ∧
      (RedisLock.withLock acq fn doRelease s).2.1 = s ∧
      RedisLock.LockEvent.fnStarted ∉
        (RedisLock.withLock acq fn doRelease s).2.2) ∧
    (RedisLock.LockEvent.releaseCalled ∈
        (RedisLock.withLock acq fn doRelease s).2.2 ↔
      RedisLock.LockEvent.fnStarted ∈
        (RedisLock.withLock acq fn doRelease s).2.2) := by
  refine ⟨?_, ?_, ?_, ?_⟩
  · rintro rfl
    refine ⟨?_, ?_, ?_, ?_⟩
    · cases hfn : (fn s).1 <;> simp [RedisLock.withLock, hfn]
    · cases hfn : (fn s).1 <;> simp [RedisLock.withLock, hfn]
    · intro v hv
      simp [RedisLock.withLock, hv]
    · intro e he
      simp [RedisLock.withLock, he]
  · rintro rfl
    refine ⟨?_, ?_, ?_⟩ <;> simp [RedisLock.withLock]
  · rintro u rfl
    refine ⟨?_, ?_, ?_⟩ <;> simp [RedisLock.withLock]
  · cases acq with
    | error u => simp [RedisLock.withLock]
    | ok b =>
        cases b
        · simp [RedisLock.withLock]
        · cases hfn : (fn s).1 <;> simp [RedisLock.withLock, hfn]

theorem withLock_contract_witness :
    (RedisLock.withLock (Except.ok true)
        (fun n : Nat => ((Except.ok (n + 5) : Except Unit Nat), n + 1))
        (fun n => n) 0).2.2 =
      [RedisLock.LockEvent.fnStarted, RedisLock.LockEvent.releaseCalled] :=
  ((withLock_contract (Except.ok true)
    (fun n : Nat => ((Except.ok (n + 5) : Except Unit Nat), n + 1))
    (fun n => n) 0).1 rfl).1

theorem rget_erase (s : RStore) (key : List Char) :
    rget { s with entries :=
        s.entries.filter (fun e => !(e.1 == key)) } key = none := by
  unfold rget
  have hf : ((s.entries.filter (fun e => !(e.1 == key))).find?
      (fun e => e.1 == key && decide (s.now < e.2.2))) = none := by
    rw [List.find?_eq_none]
    intro e he hp
    have hm := (List.mem_filter.mp he).2
    have h1 : (e.1 == key) = true := by
      cases h2 : (e.1 == key)
      · rw [h2] at hp
        simp at hp
      · rfl
    rw [h1] at hm
    simp at hm
  simp [hf]

/-- C4: on an active, non-failing store, `release` returns `true` iff the
key currently holds the caller own lock value, in which case the key is
deleted; it returns `false` (leaving the store unchanged) when the lock
expired or was taken over; on a disconnected or failing store it never
throws, returning `false` with the store unchanged. The concrete scenario
acquires as owner A, lets the TTL lapse, re-acquires as owner B, and
shows release with the stale A token returns false and leaves the key
owned by B. -/
theorem release_contract (s : RStore) (key v : List Char) :
    (s.connected = true → s.failing = false →
      (((RedisLock.release s key v).1 = true) ↔ rget s key = some v) ∧
      ((RedisLock.release s key v).1 = true →
        rget (RedisLock.release s key v).2 key = none) ∧
      ((RedisLock.release s key v).1 = false →
        (RedisLock.release s key v).2 = s)) ∧
    ((s.connected = false ∨ s.failing = true) →
      (RedisLock.release s key v).1 = false ∧
      (RedisLock.release s key v).2 = s) ∧
    ((RedisLock.release
        (rsetNxEx (advance (rsetNxEx ⟨true, false, 0, []⟩ ("lock:k").data
          ("A").data 30).2 31) ("lock:k").data ("B").data 30).2
        ("lock:k").data ("A").data).1 = false ∧
      rget (RedisLock.release
        (rsetNxEx (advance (rsetNxEx ⟨true, false, 0, []⟩ ("lock:k").data
          ("A").data 30).2 31) ("lock:k").data ("B").data 30).2
        ("lock:k").data ("A").data).2 ("lock:k").data =
          some (("B").data)) := by
  refine ⟨?_, ?_, by decide⟩
  · intro hc hf
    cases hg : rget s key with
    | none =>
        refine ⟨?_, ?_, ?_⟩ <;> simp [RedisLock.release, hc, hf, hg]
    | some v0 =>
        by_cases hv : v0 = v
        · subst hv
          refine ⟨?_, ?_, ?_⟩ <;>
            simp [RedisLock.release, hc, hf, hg]
          exact rget_erase s key
        · have hne : (v0 == v) = false := by simp [hv]
          refine ⟨?_, ?_, ?_⟩ <;>
            simp [RedisLock.release, hc, hf, hg, hne, hv]
  · intro h
    rcases h with h | h
    · have : s.connected = false := h
      constructor <;> simp [RedisLock.release, this]
    · cases hc : s.connected
      · constructor <;> simp [RedisLock.release, hc]
      · constructor <;> simp [RedisLock.release, hc, h]

theorem release_contract_witness :
    ((RedisLock.release ⟨true, false, 0, [(("k").data, ("A").data, 5)]⟩
        ("k").data ("A").data).1 = true) :=
  ((release_contract ⟨true, false, 0, [(("k").data, ("A").data, 5)]⟩
    ("k").data ("A").data).1 rfl rfl).1.mpr (by decide)

/-- C5: `acquire` returns `true` iff some attempt among `0..maxRetries`
sees the set-if-absent succeed, returning immediately (with no sleep) on
first success; when no attempt succeeds it returns `false` after the
final attempt observed a busy key, having made exactly `maxRetries`
additional attempts beyond the first (it sleeps once before each retry);
a store error on the final attempt propagates as an error, while an
earlier store error merely consumes a unit of the same retry budget; and
the outcome depends only on the first `maxRetries + 1` attempts. -/
theorem acquire_contract (o : Nat → RedisLock.AttemptOutcome) (m : Nat) :
    ((RedisLock.acquire o m).1 = .ok true ↔
      ∃ i, i ≤ m ∧ o i = .success) ∧
    ((RedisLock.acquire o m).1 = .error () ↔
      (∀ i, i ≤ m → o i ≠ .success) ∧ o m = .failure) ∧
    ((RedisLock.acquire o m).1 = .ok false ↔
      (∀ i, i ≤ m → o i ≠ .success) ∧ o m = .busy) ∧
    (o 0 = .success → RedisLock.acquire o m = (.ok true, 0)) ∧
    ((∀ i, i ≤ m → o i ≠ .success) → (RedisLock.acquire o m).2 = m) ∧
    (∀ i, i ≤ m → o i = .success → (∀ j, j < i → o j ≠ .success) →
      (RedisLock.acquire o m).2 = i) ∧
    (∀ o2, (∀ i, i ≤ m → o i = o2 i) →
      RedisLock.acquire o m = RedisLock.acquire o2 m) := by
  have h := RedisLock.acquireGo_result o m 0
  simp only [Nat.zero_add] at h
  refine ⟨h.1, h.2.1, h.2.2, ?_, ?_, ?_, ?_⟩
  · intro hs
    cases m <;> simp [RedisLock.acquire, RedisLock.acquireGo, hs]
  · intro hall
    have := RedisLock.acquireGo_sleeps_no_success o m 0
      (fun i hi => by rw [Nat.zero_add]; exact hall i hi)
    exact this
  · intro i hi hs hmin
    have := RedisLock.acquireGo_sleeps_first_success o i 0 m hi
      (by rw [Nat.zero_add]; exact hs)
      (fun j hj => by rw [Nat.zero_add]; exact hmin j hj)
    exact this
  · intro o2 ho
    unfold RedisLock.acquire
    exact RedisLock.acquireGo_congr o o2 m 0
      (fun i hi => by rw [Nat.zero_add]; exact ho i hi)

theorem acquire_contract_witness :
    (RedisLock.acquire (fun _ => RedisLock.AttemptOutcome.busy) 3).1 =
      .ok false ∧
    (RedisLock.acquire (fun _ => RedisLock.AttemptOutcome.busy) 3).2 = 3 :=
  ⟨((acquire_contract (fun _ => RedisLock.AttemptOutcome.busy) 3).2.2.1).mpr
    ⟨fun i _ => by simp, rfl⟩,
   (acquire_contract (fun _ => RedisLock.AttemptOutcome.busy) 3).2.2.2.2.1
    (fun i _ => by simp)⟩

end HotelBooking

namespace HotelBooking

/-- C6: on the success path of `createBooking` (lock acquired, validation
passes, room found, Redis active), the persisted reservation carries
`totalAmount = room.basePrice * ceil((checkOut - checkIn) / 1 day)` and
status `pending`, it is appended to the bookings collection and returned,
and every availability-cache entry for the room is invalidated. -/
theorem createBooking_success_path (now : Int) (userId newId : Nat)
    (d : ICreateBooking) (w : BookingWorld) (room : Room)
    (hv : (BookingService.validateBooking now w.rooms w.bookings
      d).isValid = true)
    (hr : lookupRoom w.rooms d.roomId = some room)
    (hc : w.redisUp = true) (hstar : '*' ∉ d.roomId) :
    ∃ b w1, BookingService.createBooking (.ok true) now userId d newId w =
        (.ok b, w1,
         [RedisLock.LockEvent.fnStarted,
          RedisLock.LockEvent.releaseCalled]) ∧
      b.totalAmount = room.basePrice *
        jsCeilDiv (d.checkOutDate - d.checkInDate) 86400000 ∧
      b.status = BookingStatus.pending ∧
      w1.bookings = w.bookings ++ [b] ∧
      (∀ dr, RedisConnection.getRoomAvailability d.roomId dr w1.cache
        = none) := by
  unfold BookingService.createBooking RedisLock.withLock
  unfold BookingService.createBookingBody
  simp only [hv, hr, hc, Bool.not_true, Bool.false_eq_true, if_false,
    if_true]
  exact ⟨_, _, rfl, rfl, rfl, rfl,
    fun dr => getRoomAvailability_redis_invalidate d.roomId dr hstar
      w.cache⟩

theorem createBooking_success_path_witness :
    (∃ b w1, BookingService.createBooking (.ok true) 0 7
        { roomId := ['r'], checkInDate := 1709251200000,
          checkOutDate := 1709510400000, numberOfGuests := 2 } 1
        { rooms := [(['r'],
            { isActive := true, maxOccupancy := 2, basePrice := 100 })],
          bookings := [], cache := [], redisUp := true } =
        (.ok b, w1,
         [RedisLock.LockEvent.fnStarted,
          RedisLock.LockEvent.releaseCalled]) ∧
      b.totalAmount = 100 *
        jsCeilDiv (1709510400000 - 1709251200000) 86400000 ∧
      b.status = BookingStatus.pending ∧
      w1.bookings = [] ++ [b] ∧
      (∀ dr, RedisConnection.getRoomAvailability ['r'] dr w1.cache
        = none)) ∧
    ((BookingService.createBooking (.ok true) 0 7
        { roomId := ['r'], checkInDate := 1709251200000,
          checkOutDate := 1709510400000, numberOfGuests := 2 } 1
        { rooms := [(['r'],
            { isActive := true, maxOccupancy := 2, basePrice := 100 })],
          bookings := [], cache := [], redisUp := true }).1.toOption.map
      (fun b => b.totalAmount) = some 300) :=
  ⟨createBooking_success_path 0 7 1
    { roomId := ['r'], checkInDate := 1709251200000,
      checkOutDate := 1709510400000, numberOfGuests := 2 }
    { rooms := [(['r'],
        { isActive := true, maxOccupancy := 2, basePrice := 100 })],
      bookings := [], cache := [], redisUp := true }
    { isActive := true, maxOccupancy := 2, basePrice := 100 }
    (by decide) (by decide) rfl (by decide),
   by decide⟩

end HotelBooking

namespace HotelBooking

/-- C7 counterexample: a booking of 40 nights (interval length over the
configured 30-night maximum) with all other rules satisfied passes
`validateBooking` with an empty error list, so the booking validator that
produces the aggregated validation result does not check the
interval-length rule and that failing rule contributes no message —
refuting the claim as stated. -/
theorem validator_four_rules_counterexample :
    30 < diffDaysCeil 86400000 (86400000 * 41) ∧
    BookingService.validateBooking 0
      [(['r'], { isActive := true, maxOccupancy := 5, basePrice := 100 })]
      [] { roomId := ['r'], checkInDate := 86400000,
           checkOutDate := 86400000 * 41, numberOfGuests := 2 } =
      { isValid := true, errors := [] } := by decide

/-- C7 amended: the service validator `validateBooking` checks three of
the pure rules — `checkIn < checkOut`, `checkIn >= now`, and
`1 <= guests <= room.maxOccupancy` — contributing exactly one
human-readable message per failing rule to its aggregated result, and a
valid result implies all three hold; the 30-night interval bound is
enforced separately by the request schema `createBookingSchema`, which
contributes exactly one message when it fails and whose acceptance
implies the bound. -/
theorem validator_rules_amended (now : Int)
    (rooms : List (List Char × Room)) (bookings : List IBooking)
    (d : ICreateBooking) (room : Room)
    (hl : lookupRoom rooms d.roomId = some room)
    (nowR : Int) (r : CreateBookingRequest) :
    ((BookingService.validateBooking now rooms bookings d).errors.count
        "Check-in date must be before check-out date" =
      if d.checkInDate < d.checkOutDate then 0 else 1) ∧
    ((BookingService.validateBooking now rooms bookings d).errors.count
        "Check-in date cannot be in the past" =
      if now ≤ d.checkInDate then 0 else 1) ∧
    ((BookingService.validateBooking now rooms bookings d).errors.count
        "Number of guests must be greater than 0" =
      if 0 < d.numberOfGuests then 0 else 1) ∧
    ((BookingService.validateBooking now rooms bookings d).errors.count
        "Number of guests exceeds room capacity" =
      if d.numberOfGuests ≤ room.maxOccupancy then 0 else 1) ∧
    ((BookingService.validateBooking now rooms bookings d).isValid = true →
      d.checkInDate < d.checkOutDate ∧ now ≤ d.checkInDate ∧
      0 < d.numberOfGuests ∧ d.numberOfGuests ≤ room.maxOccupancy) ∧
    ((createBookingSchemaIssues nowR r).count
        "Booking cannot exceed 30 days" =
      if diffDaysCeil r.checkInDate r.checkOutDate ≤ 30 then 0 else 1) ∧
    (createBookingSchemaAccepts nowR r = true →
      diffDaysCeil r.checkInDate r.checkOutDate ≤ 30) := by
  obtain ⟨hc1, hc2, hc3, hc4⟩ :=
    validateBooking_counts now rooms bookings d room hl
  refine ⟨hc1, hc2, hc3, hc4, ?_, schemaIssues_count30 nowR r, ?_⟩
  · intro hv
    obtain ⟨h1, h2, h3, room2, hr2, h4, h5, h6⟩ :=
      (validateBooking_isValid_iff now rooms bookings d).mp hv
    rw [hl] at hr2
    cases hr2
    exact ⟨h1, h2, h3, h5⟩
  · intro ha
    exact ((schemaAccepts_iff nowR r).mp ha).2.2.2.2.2

theorem validator_rules_amended_witness :
    (BookingService.validateBooking 0
      [(['r'], { isActive := true, maxOccupancy := 5, basePrice := 100 })]
      [] { roomId := ['r'], checkInDate := -5,
           checkOutDate := 86400000, numberOfGuests := 0 }).errors.count
      "Check-in date cannot be in the past" = 1 := by
  have h := (validator_rules_amended 0
    [(['r'], { isActive := true, maxOccupancy := 5, basePrice := 100 })]
    [] { roomId := ['r'], checkInDate := -5,
         checkOutDate := 86400000, numberOfGuests := 0 }
    { isActive := true, maxOccupancy := 5, basePrice := 100 }
    (by decide) 0
    { checkInDate := 0, checkOutDate := 0, numberOfGuests := 1 }).2.1
  rw [h]
  decide

/-- C8 counterexample: the invalidation invoked after a booking is
created (`RedisConnection.invalidateRoomCache`, called by
`createBooking`) leaves an entry under the broad `room:availability:
search:` namespace untouched and still retrievable, refuting the claim
that the invalidation run after a booking is created removes all entries
of that namespace; the `BookingService.invalidateRoomCache` used by
cancel/confirm does remove it. -/
theorem invalidate_search_namespace_counterexample :
    RedisConnection.invalidateRoomCache ("r1").data
        [(("room:availability:search:all").data, true)] =
      [(("room:availability:search:all").data, true)] ∧
    cacheGet ("room:availability:search:all").data
      (RedisConnection.invalidateRoomCache ("r1").data
        [(("room:availability:search:all").data, true)]) = some true ∧
    BookingService.invalidateRoomCache ("r1").data
        [(("room:availability:search:all").data, true)] = [] := by
  refine ⟨?_, ?_, ?_⟩ <;>
    simp [RedisConnection.invalidateRoomCache,
      BookingService.invalidateRoomCache, delKeys, scanMatching, cacheGet,
      globMatch]

/-- C8 amended: both invalidation implementations remove every
availability entry of the given room — in particular a value previously
stored by `setRoomAvailability` for that room is no longer retrievable —
and the `BookingService` variant (used on cancel/confirm) additionally
removes every entry under the `room:availability:search:` namespace;
only that variant touches the search namespace. -/
theorem invalidate_amended (r dr rest : List Char) (s : CacheStore)
    (v : Bool) (hstar : '*' ∉ r) :
    RedisConnection.getRoomAvailability r dr
      (RedisConnection.invalidateRoomCache r s) = none ∧
    RedisConnection.getRoomAvailability r dr
      (RedisConnection.invalidateRoomCache r
        (RedisConnection.setRoomAvailability r dr v s)) = none ∧
    RedisConnection.getRoomAvailability r dr
      (BookingService.invalidateRoomCache r s) = none ∧
    cacheGet (("room:availability:search:").data ++ rest)
      (BookingService.invalidateRoomCache r s) = none :=
  ⟨getRoomAvailability_redis_invalidate r dr hstar s,
   getRoomAvailability_redis_invalidate r dr hstar _,
   getRoomAvailability_bs_invalidate r dr hstar s,
   searchKey_bs_invalidate r rest s⟩

theorem invalidate_amended_witness :
    RedisConnection.getRoomAvailability ("r1").data ("d1").data
      (RedisConnection.invalidateRoomCache ("r1").data
        (RedisConnection.setRoomAvailability ("r1").data ("d1").data true
          [])) = none :=
  (invalidate_amended ("r1").data ("d1").data [] [] true (by decide)).2.1

end HotelBooking

namespace HotelBooking

/-- C9 (implicit): `cancelBooking` imposes no status precondition — it
succeeds exactly when a booking with the given id exists, regardless of
its current status (including cancelled or completed), setting the
status to `cancelled` and returning the updated document, and errors
only when no such booking exists; by contrast `confirmBooking` succeeds
exactly when the booking exists with status `pending`. -/
theorem cancel_confirm_status (bookings : List IBooking)
    (bookingId : Nat) :
    ((∃ res, BookingService.cancelBooking bookings bookingId = .ok res) ↔
      ∃ b ∈ bookings, b.id = bookingId) ∧
    (∀ b bs,
      BookingService.cancelBooking bookings bookingId = .ok (b, bs) →
      b.status = BookingStatus.cancelled) ∧
    (∀ b, bookings.find? (fun x => x.id == bookingId) = some b →
      BookingService.cancelBooking bookings bookingId =
        .ok ({ b with status := BookingStatus.cancelled },
          bookings.map (fun x => if x.id == b.id then
            { b with status := BookingStatus.cancelled } else x))) ∧
    ((∀ b ∈ bookings, b.id ≠ bookingId) →
      BookingService.cancelBooking bookings bookingId =
        .error "Booking not found") ∧
    ((∃ res, BookingService.confirmBooking bookings bookingId = .ok res) ↔
      ∃ b ∈ bookings, b.id = bookingId ∧
        b.status = BookingStatus.pending) := by
  refine ⟨?_, ?_, ?_, ?_, ?_⟩
  · unfold BookingService.cancelBooking findOneAndUpdate
    cases hfind : bookings.find? (fun b => b.id == bookingId) with
    | none =>
        constructor
        · rintro ⟨res, hres⟩
          cases hres
        · rintro ⟨b, hb, hid⟩
          have := List.find?_eq_none.mp hfind b hb
          simp [hid] at this
    | some b =>
        constructor
        · intro _
          exact ⟨b, List.mem_of_find?_eq_some hfind,
            by simpa using List.find?_some hfind⟩
        · intro _
          exact ⟨_, rfl⟩
  · intro b bs hok
    unfold BookingService.cancelBooking findOneAndUpdate at hok
    cases hfind : bookings.find? (fun x => x.id == bookingId) with
    | none =>
        rw [hfind] at hok
        cases hok
    | some b0 =>
        rw [hfind] at hok
        cases hok
        rfl
  · intro b hfind
    unfold BookingService.cancelBooking findOneAndUpdate
    rw [hfind]
  · intro hnone
    unfold BookingService.cancelBooking findOneAndUpdate
    have hfind : bookings.find? (fun b => b.id == bookingId) = none := by
      rw [List.find?_eq_none]
      intro b hb
      simp [hnone b hb]
    rw [hfind]
  · unfold BookingService.confirmBooking findOneAndUpdate
    cases hfind : bookings.find?
        (fun b => b.id == bookingId &&
          b.status == BookingStatus.pending) with
    | none =>
        constructor
        · rintro ⟨res, hres⟩
          cases hres
        · rintro ⟨b, hb, hid, hst⟩
          have := List.find?_eq_none.mp hfind b hb
          simp [hid, hst] at this
    | some b =>
        constructor
        · intro _
          have hp := List.find?_some hfind
          simp only [Bool.and_eq_true, beq_iff_eq] at hp
          exact ⟨b, List.mem_of_find?_eq_some hfind, hp.1, hp.2⟩
        · intro _
          exact ⟨_, rfl⟩

theorem cancel_confirm_status_witness :
    BookingService.cancelBooking
      [{ id := 1, userId := 7, roomId := ['r'], checkInDate := 0,
         checkOutDate := 86400000, numberOfGuests := 1, totalAmount := 100,
         status := BookingStatus.completed,
         paymentStatus := PaymentStatus.paid }] 1 =
      .ok ({ id := 1, userId := 7, roomId := ['r'], checkInDate := 0,
             checkOutDate := 86400000, numberOfGuests := 1,
             totalAmount := 100, status := BookingStatus.cancelled,
             paymentStatus := PaymentStatus.paid },
           [{ id := 1, userId := 7, roomId := ['r'], checkInDate := 0,
              checkOutDate := 86400000, numberOfGuests := 1,
              totalAmount := 100, status := BookingStatus.cancelled,
              paymentStatus := PaymentStatus.paid }]) ∧
    ¬ (∃ res, BookingService.confirmBooking
      [{ id := 1, userId := 7, roomId := ['r'], checkInDate := 0,
         checkOutDate := 86400000, numberOfGuests := 1, totalAmount := 100,
         status := BookingStatus.completed,
         paymentStatus := PaymentStatus.paid }] 1 = .ok res) :=
  ⟨by
    have h := (cancel_confirm_status
      [{ id := 1, userId := 7, roomId := ['r'], checkInDate := 0,
         checkOutDate := 86400000, numberOfGuests := 1, totalAmount := 100,
         status := BookingStatus.completed,
         paymentStatus := PaymentStatus.paid }] 1).2.2.1
      { id := 1, userId := 7, roomId := ['r'], checkInDate := 0,
        checkOutDate := 86400000, numberOfGuests := 1, totalAmount := 100,
        status := BookingStatus.completed,
        paymentStatus := PaymentStatus.paid } (by decide)
    simpa using h,
   fun hex => by
    have h := (cancel_confirm_status
      [{ id := 1, userId := 7, roomId := ['r'], checkInDate := 0,
         checkOutDate := 86400000, numberOfGuests := 1, totalAmount := 100,
         status := BookingStatus.completed,
         paymentStatus := PaymentStatus.paid }] 1).2.2.2.2.mp hex
    revert h
    decide⟩

/-- C10 (implicit): the public create-booking request schema rejects
every request whose `numberOfGuests` is greater than 10, not an integer,
or less than 1 — the schema consults no room data, so a room with
capacity above 10 can never be booked for more than 10 guests through
the public interface. -/
theorem schema_guests_bounds (now : Int) (r : CreateBookingRequest) :
    (10 < r.numberOfGuests ∨ r.numberOfGuests.den ≠ 1 ∨
      r.numberOfGuests < 1) →
    createBookingSchemaAccepts now r = false := by
  intro h
  cases hacc : createBookingSchemaAccepts now r
  · rfl
  · exfalso
    obtain ⟨-, hden, hmin, hmax, -, -⟩ := (schemaAccepts_iff now r).mp hacc
    rcases h with h | h | h
    · exact absurd hmax (not_le.mpr h)
    · exact h hden
    · exact absurd hmin (not_le.mpr h)

theorem schema_guests_bounds_witness :
    createBookingSchemaAccepts 0
      { checkInDate := 1, checkOutDate := 86400000,
        numberOfGuests := 11 } = false ∧
    createBookingSchemaAccepts 0
      { checkInDate := 1, checkOutDate := 86400000,
        numberOfGuests := (1 : Rat) / 2 } = false ∧
    createBookingSchemaAccepts 0
      { checkInDate := 1, checkOutDate := 86400000,
        numberOfGuests := 0 } = false :=
  ⟨schema_guests_bounds 0 _ (Or.inl (by norm_num)),
   schema_guests_bounds 0 _ (Or.inr (Or.inl (by norm_num))),
   schema_guests_bounds 0 _ (Or.inr (Or.inr (by norm_num)))⟩

end HotelBooking

namespace HotelBooking

theorem race_exactly_one_witness :
    ∃ w : Bool,
      (raceRun raceCtxExample
        [true, true, true, true, false, false, false, false]).proc w =
        ProcState.doneSuccess ∧
      (raceRun raceCtxExample
        [true, true, true, true, false, false, false, false]).bookings =
        [raceCtxExample.bookingOf w] ∧
      ((raceRun raceCtxExample
          [true, true, true, true, false, false, false, false]).proc (!w) =
        ProcState.doneConflict conflictMsg ∨
       (raceRun raceCtxExample
          [true, true, true, true, false, false, false, false]).proc (!w) =
        ProcState.doneLockFail) ∧
      (raceRun raceCtxExample
        [true, true, true, true, false, false, false, false]).proc (!w) ≠
        ProcState.doneSuccess :=
  race_exactly_one raceCtxExample (by decide)
    [true, true, true, true, false, false, false, false]
    (by decide) (by decide)

end HotelBooking
